import Mathlib

/-!
# Verification of the meeting-summaries data-ingestion pipeline

Shallow embedding, in Lean 4, of the ingestion core of the
SingularityNET-Archive `data-ingestion` repository: the validation
pipeline (`src/services/json_validator.py`, `src/models/meeting_summary.py`),
the identity and normalization helpers (`src/lib/validators.py`), the
transactional writer (`src/services/ingestion_service.py`,
`src/services/schema_manager.py`), and the dashboard KPI endpoint
(`backend/app/api/kpis.py`).  The SQL `upsert_*` primitives live in the
database schema, outside the repository's Python sources; they are modelled
from the specification (simple primary-key upsert into each table).

Machine hashing (`hashlib.sha256`, the SHA-1 inside `uuid.uuid5`) is
implemented concretely, byte for byte, so that identity derivation is the
real function and known-answer tests pin it down.
-/

set_option maxRecDepth 40000

namespace DataIngestion

/-! ## JSON values

The untyped JSON documents the pipeline ingests.  Numbers are modelled as
integers: none of the verified behaviour inspects numeric values beyond
carrying them through, and no claim depends on float parsing. -/

inductive Json where
  | null : Json
  | bool (b : Bool) : Json
  | num (n : Int) : Json
  | str (s : String) : Json
  | arr (items : List Json) : Json
  | obj (fields : List (String × Json)) : Json

namespace Json

/-- Look up a key in a JSON object's field list (first match, like Python
`dict` access on parsed JSON, whose keys are unique). -/
def getField : Json → String → Option Json
  | obj fields, k => fields.lookup k
  | _, _ => none

mutual

/-- Number of levels of a JSON tree: a scalar is one level, a container is
one level more than its deepest child (an empty container is one level). -/
def height : Json → Nat
  | null => 1
  | bool _ => 1
  | num _ => 1
  | str _ => 1
  | arr items => 1 + heightList items
  | obj fields => 1 + heightFields fields
termination_by j => sizeOf j

/-- Largest height among a list of JSON values (0 for the empty list). -/
def heightList : List Json → Nat
  | [] => 0
  | j :: rest => Nat.max (height j) (heightList rest)
termination_by l => sizeOf l

/-- Largest height among the values of a JSON object's fields. -/
def heightFields : List (String × Json) → Nat
  | [] => 0
  | (_k, v) :: rest => Nat.max (height v) (heightFields rest)
termination_by l => sizeOf l

end

end Json

/-! ## Bytes, 32-bit words, hex -/

/-- A byte is a `Nat` kept below 256 by construction. -/
abbrev Byte := Nat

/-- Truncate to a 32-bit word. -/
def w32 (n : Nat) : Nat := n % 4294967296

/-- Right-rotate a 32-bit word (input assumed `< 2 ^ 32`). -/
def rotr32 (x n : Nat) : Nat := x / 2 ^ n + x % 2 ^ n * 2 ^ (32 - n)

/-- Left-rotate a 32-bit word (input assumed `< 2 ^ 32`). -/
def rotl32 (x n : Nat) : Nat := rotr32 x (32 - n)

/-- Bitwise complement of a 32-bit word (input assumed `< 2 ^ 32`). -/
def not32 (x : Nat) : Nat := 4294967295 - x

/-- The lowercase hex digit for a nibble. -/
def hexDigit (n : Nat) : Char :=
  if n < 10 then Char.ofNat (48 + n) else Char.ofNat (87 + n)

/-- Lowercase hex of `n`, zero-padded to `k` digits (low digit last). -/
def toHexPad (n k : Nat) : String :=
  String.mk ((List.range k).map fun i => hexDigit (n / 16 ^ (k - 1 - i) % 16))

/-- Big-endian bytes of `n`, zero-padded to `k` bytes. -/
def natToBytesBE (n k : Nat) : List Byte :=
  (List.range k).map fun i => n / 256 ^ (k - 1 - i) % 256

/-- Big-endian reading of a byte list as a natural number. -/
def bytesToNatBE (bs : List Byte) : Nat :=
  bs.foldl (fun acc b => acc * 256 + b) 0

/-- UTF-8 encoding of one character (standard RFC 3629 scheme, as
`str.encode("utf-8")` produces). -/
def utf8EncodeChar (c : Char) : List Byte :=
  let n := c.toNat
  if n < 128 then [n]
  else if n < 2048 then [192 + n / 64, 128 + n % 64]
  else if n < 65536 then [224 + n / 4096, 128 + n / 64 % 64, 128 + n % 64]
  else [240 + n / 262144, 128 + n / 4096 % 64, 128 + n / 64 % 64, 128 + n % 64]

/-- UTF-8 encoding of a string, as Python's `str.encode("utf-8")`. -/
def utf8Encode (s : String) : List Byte :=
  s.data.flatMap utf8EncodeChar

/-! ## SHA-256 (FIPS 180-4), over `Nat` words reduced mod `2 ^ 32`

Faithful implementation of the function behind `hashlib.sha256` as used by
`IngestionService._process_single_meeting` for deterministic meeting ids. -/

namespace SHA256

/-- The 64 round constants. -/
def K : List Nat :=
  [1116352408, 1899447441, 3049323471, 3921009573, 961987163, 1508970993,
   2453635748, 2870763221, 3624381080, 310598401, 607225278, 1426881987,
   1925078388, 2162078206, 2614888103, 3248222580, 3835390401, 4022224774,
   264347078, 604807628, 770255983, 1249150122, 1555081692, 1996064986,
   2554220882, 2821834349, 2952996808, 3210313671, 3336571891, 3584528711,
   113926993, 338241895, 666307205, 773529912, 1294757372, 1396182291,
   1695183700, 1986661051, 2177026350, 2456956037, 2730485921, 2820302411,
   3259730800, 3345764771, 3516065817, 3600352804, 4094571909, 275423344,
   430227734, 506948616, 659060556, 883997877, 958139571, 1322822218,
   1537002063, 1747873779, 1955562222, 2024104815, 2227730452, 2361852424,
   2428436474, 2756734187, 3204031479, 3329325298]

/-- Initial hash state `H0`. -/
def H0 : List Nat :=
  [1779033703, 3144134277, 1013904242, 2773480762,
   1359893119, 2600822924, 528734635, 1541459225]

def ch (x y z : Nat) : Nat := Nat.xor (Nat.land x y) (Nat.land (not32 x) z)

def maj (x y z : Nat) : Nat :=
  Nat.xor (Nat.xor (Nat.land x y) (Nat.land x z)) (Nat.land y z)

def bigSigma0 (x : Nat) : Nat := Nat.xor (Nat.xor (rotr32 x 2) (rotr32 x 13)) (rotr32 x 22)

def bigSigma1 (x : Nat) : Nat := Nat.xor (Nat.xor (rotr32 x 6) (rotr32 x 11)) (rotr32 x 25)

def smallSigma0 (x : Nat) : Nat := Nat.xor (Nat.xor (rotr32 x 7) (rotr32 x 18)) (x / 2 ^ 3)

def smallSigma1 (x : Nat) : Nat := Nat.xor (Nat.xor (rotr32 x 17) (rotr32 x 19)) (x / 2 ^ 10)

/-- Message padding: `0x80`, zeros to 56 mod 64, then the 64-bit big-endian
bit length. -/
def pad (msg : List Byte) : List Byte :=
  let len := msg.length
  let zeros := (64 + 56 - (len + 1) % 64) % 64
  msg ++ [0x80] ++ List.replicate zeros 0 ++ natToBytesBE (len * 8) 8

/-- The 16 message words of one 64-byte block. -/
def blockWords (block : List Byte) : List Nat :=
  (List.range 16).map fun t => bytesToNatBE ((block.drop (t * 4)).take 4)

/-- Extend the 16 message words to 64 (indices 16..63). -/
def extendWords : Nat → List Nat → List Nat
  | 0, ws => ws
  | n + 1, ws =>
      let t := ws.length
      let word := w32 (smallSigma1 (ws.getD (t - 2) 0) + ws.getD (t - 7) 0 +
        smallSigma0 (ws.getD (t - 15) 0) + ws.getD (t - 16) 0)
      extendWords n (ws ++ [word])

/-- One round of the compression function on the register tuple. -/
def round (regs : List Nat) (kw : Nat × Nat) : List Nat :=
  match regs with
  | [a, b, c, d, e, f, g, h] =>
      let t1 := w32 (h + bigSigma1 e + ch e f g + kw.1 + kw.2)
      let t2 := w32 (bigSigma0 a + maj a b c)
      [w32 (t1 + t2), a, b, c, w32 (d + t1), e, f, g]
  | other => other

/-- Compress one 64-byte block into the running state. -/
def compress (state : List Nat) (block : List Byte) : List Nat :=
  let ws := extendWords 48 (blockWords block)
  let regs := (K.zip ws).foldl round state
  (state.zip regs).map fun p => w32 (p.1 + p.2)

/-- Split into 64-byte blocks (input length assumed a multiple of 64). -/
def chunks : Nat → List Byte → List (List Byte)
  | 0, _ => []
  | _, [] => []
  | fuel + 1, bs => bs.take 64 :: chunks fuel (bs.drop 64)

/-- SHA-256 of a byte string, as the eight 32-bit state words. -/
def hashWords (msg : List Byte) : List Nat :=
  let padded := pad msg
  (chunks (padded.length / 64) padded).foldl compress H0

/-- SHA-256 digest as 32 bytes. -/
def hashBytes (msg : List Byte) : List Byte :=
  (hashWords msg).flatMap fun word => natToBytesBE word 4

/-- `hashlib.sha256(data).hexdigest()`: 64 lowercase hex characters. -/
def hexdigest (msg : List Byte) : String :=
  String.join ((hashWords msg).map fun word => toHexPad word 8)

end SHA256

/-! Known-answer tests for SHA-256 (FIPS 180-4 / NIST test vectors). -/

theorem sha256_kat_empty :
    SHA256.hexdigest (utf8Encode "") =
      "e3b0c44298fc1c149afbf4c8996fb92427ae41e4649b934ca495991b7852b855" := by
  decide

theorem sha256_kat_abc :
    SHA256.hexdigest (utf8Encode "abc") =
      "ba7816bf8f01cfea414140de5dae2223b00361a396177a9cb410ff61f20015ad" := by
  decide

/-! ## SHA-1 (FIPS 180-4)

`uuid.uuid5` is defined over SHA-1 of the namespace bytes followed by the
UTF-8 name; the writer's deterministic ids therefore need it concretely. -/

namespace SHA1

/-- Initial hash state. -/
def H0 : List Nat :=
  [1732584193, 4023233417, 2562383102, 271733878, 3285377520]

/-- The round function `f_t` for round `t`. -/
def f (t x y z : Nat) : Nat :=
  if t < 20 then Nat.xor (Nat.land x y) (Nat.land (not32 x) z)
  else if t < 40 then Nat.xor (Nat.xor x y) z
  else if t < 60 then Nat.xor (Nat.xor (Nat.land x y) (Nat.land x z)) (Nat.land y z)
  else Nat.xor (Nat.xor x y) z

/-- The round constant `K_t` for round `t`. -/
def kconst (t : Nat) : Nat :=
  if t < 20 then 1518500249
  else if t < 40 then 1859775393
  else if t < 60 then 2400959708
  else 3395469782

/-- Extend the 16 message words to 80: `W_t = rotl1 (W_{t-3} ^ W_{t-8} ^ W_{t-14} ^ W_{t-16})`. -/
def extendWords : Nat → List Nat → List Nat
  | 0, ws => ws
  | n + 1, ws =>
      let t := ws.length
      let word := rotl32 (Nat.xor (Nat.xor (ws.getD (t - 3) 0) (ws.getD (t - 8) 0))
        (Nat.xor (ws.getD (t - 14) 0) (ws.getD (t - 16) 0))) 1
      extendWords n (ws ++ [word])

/-- One round on the register list `[a, b, c, d, e]`. -/
def round (regs : List Nat) (tw : Nat × Nat) : List Nat :=
  match regs with
  | [a, b, c, d, e] =>
      let temp := w32 (rotl32 a 5 + f tw.1 b c d + e + kconst tw.1 + tw.2)
      [temp, a, rotl32 b 30, c, d]
  | other => other

/-- Compress one 64-byte block into the running state. -/
def compress (state : List Nat) (block : List Byte) : List Nat :=
  let ws := extendWords 64 (SHA256.blockWords block)
  let regs := (((List.range 80).zip ws)).foldl round state
  (state.zip regs).map fun p => w32 (p.1 + p.2)

/-- SHA-1 of a byte string, as the five 32-bit state words.  Padding is the
same scheme as SHA-256. -/
def hashWords (msg : List Byte) : List Nat :=
  let padded := SHA256.pad msg
  (SHA256.chunks (padded.length / 64) padded).foldl compress H0

/-- SHA-1 digest as 20 bytes. -/
def hashBytes (msg : List Byte) : List Byte :=
  (hashWords msg).flatMap fun word => natToBytesBE word 4

end SHA1

/-- Known-answer test for SHA-1 (FIPS 180-4 test vector). -/
theorem sha1_kat_abc :
    SHA1.hashBytes (utf8Encode "abc") =
      [0xa9, 0x99, 0x3e, 0x36, 0x47, 0x06, 0x81, 0x6a, 0xba, 0x3e,
       0x25, 0x71, 0x78, 0x50, 0xc2, 0x6c, 0x9c, 0xd0, 0xd8, 0x9d] := by
  decide

/-! ## UUIDs (Python `uuid` module)

A UUID is its 128-bit integer value (`uuid.UUID.int`).  Parsing mirrors
`uuid.UUID(hex)`: strip `urn:` and `uuid:` markers and surrounding braces,
remove hyphens, then require exactly 32 hex digits.  (The exotic inputs that
Python's `int(_, 16)` additionally tolerates — embedded underscores, signs,
a `0x` prefix, surrounding whitespace — are not modelled; no verified
behaviour depends on them.)  `toString` is the canonical lowercase hyphenated
form produced by `str(uuid.UUID(...))`. -/

abbrev UUID := Fin (2 ^ 128)

/-- Is this character an ASCII hex digit? -/
def isHexChar (c : Char) : Bool :=
  (48 ≤ c.toNat && c.toNat ≤ 57) || (97 ≤ c.toNat && c.toNat ≤ 102) ||
    (65 ≤ c.toNat && c.toNat ≤ 70)

/-- Value of an ASCII hex digit. -/
def hexVal (c : Char) : Nat :=
  if c.toNat ≤ 57 then c.toNat - 48
  else if c.toNat ≤ 70 then c.toNat - 55
  else c.toNat - 87

/-- Left-to-right, non-overlapping replacement of every occurrence of `pat`
(Python `str.replace` with a non-empty pattern).  Fuel-driven so the kernel
can evaluate it; the fuel starts at the string length, which bounds the
number of steps. -/
def replaceGo (pat rep : List Char) : Nat → List Char → List Char
  | 0, s => s
  | _fuel + 1, [] => []
  | fuel + 1, c :: rest =>
      if pat.isPrefixOf (c :: rest) then
        rep ++ replaceGo pat rep fuel ((c :: rest).drop pat.length)
      else
        c :: replaceGo pat rep fuel rest

/-- Python `value.replace(pat, rep)` for a non-empty `pat`. -/
def strReplace (value pat rep : String) : String :=
  if pat.data.isEmpty then value
  else String.mk (replaceGo pat.data rep.data value.length value.data)

/-- `uuid.UUID(value)` on a string: canonicalize and parse, `none` on the
`ValueError` path. -/
def uuidParse (value : String) : Option UUID :=
  let hex := strReplace (strReplace value "urn:" "") "uuid:" ""
  let hex := String.mk (((hex.data.dropWhile (fun c => c = '\x7b' || c = '\x7d')).reverse.dropWhile
    (fun c => c = '\x7b' || c = '\x7d')).reverse)
  let hex := strReplace hex "-" ""
  if hex.length = 32 && hex.data.all isHexChar then
    some ⟨hex.data.foldl (fun acc c => acc * 16 + hexVal c) 0 % 2 ^ 128, by
      exact Nat.mod_lt _ (by norm_num)⟩
  else
    none

/-- Is `value` a syntactically valid UUID string (`lib/validators.validate_uuid`,
and the `uuid.UUID(str(v))` checks in the pydantic validators)? -/
def validate_uuid (value : String) : Bool := (uuidParse value).isSome

/-- `str(uuid.UUID(...))`: canonical lowercase 8-4-4-4-12 form. -/
def uuidToString (u : UUID) : String :=
  let h := toHexPad u.val 32
  String.join [h.take 8, "-", (h.drop 8).take 4, "-", (h.drop 12).take 4,
    "-", (h.drop 16).take 4, "-", h.drop 20]

/-- The 16 big-endian bytes of a UUID (`uuid.UUID.bytes`). -/
def uuidBytes (u : UUID) : List Byte := natToBytesBE u.val 16

/-- `uuid.uuid5(namespace, name)`: SHA-1 of namespace bytes ++ UTF-8 name,
truncated to 16 bytes, with the version field forced to 5 and the variant
field to RFC 4122. -/
def uuid5 (ns : UUID) (name : String) : UUID :=
  let digest := (SHA1.hashBytes (uuidBytes ns ++ utf8Encode name)).take 16
  let n := bytesToNatBE digest
  -- time_hi_and_version: clear the top nibble of byte 6, set it to 5
  let n := n - n / 2 ^ 76 % 16 * 2 ^ 76 + 5 * 2 ^ 76
  -- clock_seq_hi_and_reserved: force the top two bits of byte 8 to 10
  let n := n - n / 2 ^ 62 % 4 * 2 ^ 62 + 2 * 2 ^ 62
  ⟨n % 2 ^ 128, Nat.mod_lt _ (by norm_num)⟩

/-- Known-answer test: `uuid.uuid5(uuid.NAMESPACE_DNS, "python.org")` from
the Python standard library documentation. -/
theorem uuid5_kat_python_org :
    uuidToString (uuid5 ((uuidParse "6ba7b810-9dad-11d1-80b4-00c04fd430c8").getD 0)
        "python.org") =
      "886313e1-3b8a-5372-9b90-0c9aee199e5d" := by
  decide

/-! ## Date parsing (`src/lib/validators.py:parse_date`)

`parse_date` tries `datetime.strptime` against a fixed list of formats.  The
embedding interprets the format strings over the directives that occur in
them (`%Y %m %d %H %M %S %f %z`), following CPython's `_strptime` matching:
`%Y` is exactly four digits, `%m %d %H %M %S` are one or two digits (greedy;
all separators in these formats are non-digits, so greedy matching accepts
exactly the strings the backtracking regex accepts), `%f` is one to six
digits, `%z` is `Z` or `±HH[:]MM[[:​]SS[.frac]]`, and the resulting fields
must form a valid `datetime` (year 1–9999, real calendar day, hour ≤ 23,
minute ≤ 59, second ≤ 59, UTC offset strictly inside ±24 h). -/

/-- A parsed `datetime`: date and time fields plus an optional UTC offset in
microseconds (present exactly when the format carried `%z`). -/
structure DateTime where
  year : Nat
  month : Nat
  day : Nat
  hour : Nat
  minute : Nat
  second : Nat
  microsecond : Nat
  tzOffsetMicro : Option Int
  deriving DecidableEq

/-- A calendar date, as `datetime.date`. -/
structure Date where
  year : Nat
  month : Nat
  day : Nat
  deriving DecidableEq

/-- `datetime.date()`: drop the time fields. -/
def DateTime.toDate (dt : DateTime) : Date := ⟨dt.year, dt.month, dt.day⟩

/-- Gregorian leap year. -/
def isLeapYear (y : Nat) : Bool := (y % 4 = 0 && y % 100 ≠ 0) || y % 400 = 0

/-- Days in a month of the Gregorian calendar. -/
def daysInMonth (y m : Nat) : Nat :=
  if m = 2 then (if isLeapYear y then 29 else 28)
  else if m = 4 || m = 6 || m = 9 || m = 11 then 30
  else 31

/-- Decimal rendering of `n`, zero-padded to `k` digits. -/
def padNum (n k : Nat) : String :=
  String.mk ((List.range k).map fun i => Char.ofNat (48 + n / 10 ^ (k - 1 - i) % 10))

/-- `str(datetime.date)`: ISO `YYYY-MM-DD`, zero-padded. -/
def dateToString (d : Date) : String :=
  String.join [padNum d.year 4, "-", padNum d.month 2, "-", padNum d.day 2]

/-- Greedy run of at most `maxD` leading digits; `none` when there is no
leading digit.  Returns the value and the remaining characters. -/
def parseDigits (maxD : Nat) (s : List Char) : Option (Nat × List Char) :=
  let ds := (s.take maxD).takeWhile Char.isDigit
  if ds.isEmpty then none
  else some (ds.foldl (fun a c => a * 10 + (c.toNat - 48)) 0, s.drop ds.length)

/-- Exactly `k` leading digits. -/
def parseDigitsExact (k : Nat) (s : List Char) : Option (Nat × List Char) :=
  let ds := s.take k
  if ds.length = k && ds.all Char.isDigit then
    some (ds.foldl (fun a c => a * 10 + (c.toNat - 48)) 0, s.drop k)
  else none

/-- Fields accumulated while matching one format string. -/
structure StrpAcc where
  year : Nat
  month : Nat
  day : Nat
  hour : Nat
  minute : Nat
  second : Nat
  microsecond : Nat
  tzOffsetMicro : Option Int
  deriving DecidableEq

/-- The empty accumulator (CPython defaults; year default is 1900 but every
format used here carries `%Y`). -/
def strpInit : StrpAcc := ⟨1900, 1, 1, 0, 0, 0, 0, none⟩

/-- Match `%z`: CPython's regex
`[+-]\d\d:?[0-5]\d(:?[0-5]\d(\.\d{1,6})?)? | Z` — a sign, two hour digits
(any value, the overall < 24h bound is checked at `timezone()` time), an
optional colon, two minute digits bounded by `[0-5]\d`, then optionally two
second digits (again `[0-5]\d`) with an optional 1–6 digit fraction.
CPython additionally raises `ValueError` when colon use is inconsistent
(a colon between hours and minutes but none before seconds, or vice
versa); since `%z` is the final directive of the only source format using
it, that hard failure is extensionally the same as leaving the seconds
tail unconsumed (the trailing characters then fail the whole-match check),
which is how it is modelled here: the tail matches only when its colon
presence equals the hour–minute colon.  A failed fraction group
(`.` with no digit) likewise leaves the tail unmatched while the seconds
stand, mirroring the regex's inner optional group.  Yields the offset in
signed microseconds. -/
def parseZ (s : List Char) : Option (Int × List Char) :=
  match s with
  | 'Z' :: rest => some (0, rest)
  | sign :: rest =>
      if sign = '+' || sign = '-' then
        match parseDigitsExact 2 rest with
        | none => none
        | some (hh, rest) =>
          let hasColon : Bool := decide (rest.head? = some ':')
          let rest := if hasColon then rest.drop 1 else rest
          match parseDigitsExact 2 rest with
          | none => none
          | some (mm, rest) =>
            if mm ≤ 59 then
              let tryTail :=
                if decide (rest.head? = some ':') = hasColon then
                  let rest' := if hasColon then rest.drop 1 else rest
                  match parseDigitsExact 2 rest' with
                  | none => none
                  | some (ss, rest') =>
                    if ss ≤ 59 then
                      match rest' with
                      | '.' :: rest'' =>
                          match parseDigits 6 rest'' with
                          | none => some (ss, 0, rest')
                          | some (fr, rest3) =>
                              let fdigits := rest''.length - rest3.length
                              some (ss, fr * 10 ^ (6 - fdigits), rest3)
                      | _ => some (ss, 0, rest')
                    else none
                else none
              let (ss, frac, rest) :=
                match tryTail with
                | some (ss, frac, rest') => (ss, frac, rest')
                | none => (0, 0, rest)
              let micro : Int := ((hh * 3600 + mm * 60 + ss) * 1000000 + frac : Nat)
              some (if sign = '-' then -micro else micro, rest)
            else none
      else none
  | [] => none

/-- Interpret one format string against the input characters, in the
directive set the source's formats use.  Literal characters match
case-insensitively, as CPython compiles the format regex with
IGNORECASE (the `Z` alternative inside `%z` stays case-sensitive).
Numeric directives read 1–2 digits greedily, which is extensionally equal
to CPython's ordered regex alternatives (`%m` is `1[0-2]|0[1-9]|[1-9]`,
`%H` is `2[0-3]|[0-1]\d|\d`, …): in every source format a numeric
directive is followed by a non-digit literal or the end, so the regex
consumes the same digits whenever the whole format matches, and an
out-of-range 2-digit value that the regex alternatives reject fails here
at the `datetime` constructor check instead.  `%d` additionally carries
CPython's space-padded single-digit alternative `[space][1-9]`, taken
exactly when the input starts with a space. -/
def runFormat : List Char → List Char → StrpAcc → Option StrpAcc
  | [], [], acc => some acc
  | [], _ :: _, _ => none
  | '%' :: d :: fmtRest, s, acc =>
      match d with
      | 'Y' =>
          match parseDigitsExact 4 s with
          | some (v, rest) => runFormat fmtRest rest { acc with year := v }
          | none => none
      | 'm' =>
          match parseDigits 2 s with
          | some (v, rest) => runFormat fmtRest rest { acc with month := v }
          | none => none
      | 'd' =>
          match s with
          | ' ' :: c :: rest =>
              if '1' ≤ c && c ≤ '9' then
                runFormat fmtRest rest { acc with day := c.toNat - 48 }
              else none
          | _ =>
              match parseDigits 2 s with
              | some (v, rest) => runFormat fmtRest rest { acc with day := v }
              | none => none
      | 'H' =>
          match parseDigits 2 s with
          | some (v, rest) => runFormat fmtRest rest { acc with hour := v }
          | none => none
      | 'M' =>
          match parseDigits 2 s with
          | some (v, rest) => runFormat fmtRest rest { acc with minute := v }
          | none => none
      | 'S' =>
          match parseDigits 2 s with
          | some (v, rest) => runFormat fmtRest rest { acc with second := v }
          | none => none
      | 'f' =>
          match parseDigits 6 s with
          | some (v, rest) =>
              let fdigits := s.length - rest.length
              runFormat fmtRest rest { acc with microsecond := v * 10 ^ (6 - fdigits) }
          | none => none
      | 'z' =>
          match parseZ s with
          | some (off, rest) => runFormat fmtRest rest { acc with tzOffsetMicro := some off }
          | none => none
      | _ => none
  | c :: fmtRest, s, acc =>
      match s with
      | x :: rest =>
          if x.toLower = c.toLower then runFormat fmtRest rest acc else none
      | [] => none

/-- The `datetime` constructor's validation. -/
def strpValid (a : StrpAcc) : Bool :=
  1 ≤ a.year && a.year ≤ 9999 &&
  1 ≤ a.month && a.month ≤ 12 &&
  1 ≤ a.day && a.day ≤ daysInMonth a.year a.month &&
  a.hour ≤ 23 && a.minute ≤ 59 && a.second ≤ 59 &&
  (match a.tzOffsetMicro with
   | none => true
   | some off => -(86400000000 : Int) < off && off < 86400000000)

/-- `datetime.strptime(date_str, fmt)`, `none` on the `ValueError` path. -/
def strptime (dateStr fmt : String) : Option DateTime :=
  match runFormat fmt.data dateStr.data strpInit with
  | none => none
  | some a =>
      if strpValid a then
        some ⟨a.year, a.month, a.day, a.hour, a.minute, a.second, a.microsecond,
          a.tzOffsetMicro⟩
      else none

/-- The ISO 8601 format list of `parse_date`, in source order. -/
def iso_formats : List String :=
  ["%Y-%m-%d", "%Y-%m-%dT%H:%M:%S", "%Y-%m-%dT%H:%M:%SZ",
   "%Y-%m-%dT%H:%M:%S%z", "%Y-%m-%dT%H:%M:%S.%f", "%Y-%m-%dT%H:%M:%S.%fZ"]

/-- The fallback format list of `parse_date`, in source order. -/
def other_formats : List String := ["%m/%d/%Y", "%d-%m-%Y", "%d/%m/%Y"]

/-- First format in the list that parses the string. -/
def firstFormatMatch (dateStr : String) : List String → Option DateTime
  | [] => none
  | fmt :: rest =>
      match strptime dateStr fmt with
      | some dt => some dt
      | none => firstFormatMatch dateStr rest

/-- `parse_date` on a string: try the ISO formats, then the fallback
formats, first success wins; `none` when nothing matches. -/
def parse_date_str (dateStr : String) : Option DateTime :=
  match firstFormatMatch dateStr iso_formats with
  | some dt => some dt
  | none => firstFormatMatch dateStr other_formats

/-- `parse_date` on an arbitrary value: non-strings return `None` via the
`isinstance` guard. -/
def parse_date : Json → Option DateTime
  | .str s => parse_date_str s
  | _ => none

/-! ## Circular-reference / depth guard
(`src/lib/validators.py:detect_circular_reference`)

On parsed JSON trees the in-flight visitor set can never fire: visited ids
are discarded on backtrack, containers produced by JSON parsing are never
shared with an ancestor, and scalars have no children.  What remains is the
depth check, applied at every node — including scalars — before its type is
examined.  `max_depth` is a Python `int`, kept as `ℤ`. -/

/-- The recursion of `detect_circular_reference`, structured on the depth
budget itself: every Python-level recursive call decrements `max_depth` and
the function returns `True` the moment the budget reaches zero, so the
budget is a structural measure of the recursion. -/
def detectFuel : Nat → Json → Bool
  | 0, _ => true
  | fuel + 1, j =>
      match j with
      | .obj fields => fields.any fun f => detectFuel fuel f.2
      | .arr items => items.any fun item => detectFuel fuel item
      | _ => false

/-- `detect_circular_reference(obj, max_depth)` on a JSON tree.  `max_depth`
is a Python `int`, kept as `ℤ`; a non-positive budget reports `True` at
once, exactly as the fuel formulation's zero case does. -/
def detect_circular_reference (j : Json) (maxDepth : Int) : Bool :=
  detectFuel maxDepth.toNat j

/-! ## The strict record model (`src/models/meeting_summary.py`)

Pydantic v2 models, embedded as structures plus explicit parsers from
`Json`.  Parsing follows pydantic's default ("smart") behaviour: declared
`str` fields accept only JSON strings, `Optional` fields accept `null`,
fields with defaults may be absent (validators do not run on defaults), and
extra keys are ignored — except on `MeetingSummary`, whose
`model_config = ConfigDict(extra="allow")` retains them.  Error collection
is abbreviated to the first failing field; only validity, never the error
list, feeds the rest of the pipeline. -/

/-- Trimmed string, as Python `str.strip()` on ASCII whitespace. -/
def strip (s : String) : String :=
  String.mk ((s.data.dropWhile Char.isWhitespace).reverse.dropWhile Char.isWhitespace).reverse

structure MeetingInfo where
  date : String
  host : Option String
  documenter : Option String
  attendees : List String
  purpose : Option String
  videoLinks : List String
  workingDocs : Option (List Json)
  timestampedVideo : Option Json

structure ActionItemModel where
  id : Option String
  text : String
  assignee : Option String
  dueDate : Option String
  status : Option String

structure DecisionItemModel where
  id : Option String
  decision : String
  rationale : Option String
  effectScope : Option String

structure DiscussionPointModel where
  id : Option String
  point : String

structure AgendaItemModel where
  id : Option String
  status : Option String
  actionItems : List ActionItemModel
  decisionItems : List DecisionItemModel
  discussionPoints : List DiscussionPointModel

structure MeetingSummary where
  workgroup : String
  workgroup_id : String
  meetingInfo : MeetingInfo
  agendaItems : List AgendaItemModel
  tags : Option Json
  type : Option String
  /-- Extra top-level fields retained by `extra="allow"`, in input order. -/
  extra : List (String × Json)

/-- A validation failure: the failing field path and message, as
`validate_record` renders pydantic errors. -/
abbrev Errors := List String

/-- Parse an optional-string field: absent or `null` gives `none`; a string
gives `some`; anything else is a type error. -/
def parseOptStr (path : String) : Option Json → Except Errors (Option String)
  | none => .ok none
  | some .null => .ok none
  | some (.str s) => .ok (some s)
  | some _ => .error [s!"Field {path}: Input should be a valid string"]

/-- Parse a required-string field. -/
def parseReqStr (path : String) : Option Json → Except Errors String
  | some (.str s) => .ok s
  | some _ => .error [s!"Field {path}: Input should be a valid string"]
  | none => .error [s!"Field {path}: Field required"]

/-- The `uuid.UUID(str(v))` check shared by the `id` validators: `none`
passes, a string must parse as a UUID and is kept verbatim. -/
def parseOptUuidStr (path : String) (v : Option Json) : Except Errors (Option String) :=
  match parseOptStr path v with
  | .error e => .error e
  | .ok none => .ok none
  | .ok (some s) =>
      if validate_uuid s then .ok (some s)
      else .error [s!"Field {path}: Invalid UUID format: {s}"]

/-- Elementwise string list (`List[str]`); `null` or absent handled by the
caller. -/
def parseStrList (path : String) (items : List Json) : Except Errors (List String) :=
  match items.mapM (fun j => match j with | .str s => some s | _ => none) with
  | some ss => .ok ss
  | none => .error [s!"Field {path}: Input should be a valid string"]

/-- `MeetingInfo.validate_array_elements` (`attendees`, `videoLinks`):
remove elements that are empty or whitespace-only. -/
def validate_array_elements (v : List String) : List String :=
  v.filter fun item => item ≠ "" && strip item ≠ ""

/-- Parse `meetingInfo` (`MeetingInfo` pydantic model; extra keys ignored). -/
def parseMeetingInfo (j : Json) : Except Errors MeetingInfo := do
  match j with
  | .obj fields =>
      let date ← parseReqStr "meetingInfo.date" (fields.lookup "date")
      let host ← parseOptStr "meetingInfo.host" (fields.lookup "host")
      let documenter ← parseOptStr "meetingInfo.documenter" (fields.lookup "documenter")
      let attendees ←
        match fields.lookup "attendees" with
        | none => .ok []
        | some .null => .ok []
        | some (.arr items) =>
            (parseStrList "meetingInfo.attendees" items).map validate_array_elements
        | some _ => .error ["Field meetingInfo.attendees: Input should be a valid list"]
      let purpose ← parseOptStr "meetingInfo.purpose" (fields.lookup "purpose")
      let videoLinks ←
        match fields.lookup "videoLinks" with
        | none => .ok []
        | some .null => .ok []
        | some (.arr items) =>
            (parseStrList "meetingInfo.videoLinks" items).map validate_array_elements
        | some _ => .error ["Field meetingInfo.videoLinks: Input should be a valid list"]
      let workingDocs ←
        match fields.lookup "workingDocs" with
        | none => .ok (some [])
        | some .null => .ok none
        | some (.arr items) =>
            if items.all (fun it => match it with | .obj _ => true | _ => false) then
              .ok (some items)
            else .error ["Field meetingInfo.workingDocs: Input should be a valid dictionary"]
        | some _ => .error ["Field meetingInfo.workingDocs: Input should be a valid list"]
      let timestampedVideo ←
        match fields.lookup "timestampedVideo" with
        | none => .ok none
        | some .null => .ok none
        | some (.obj o) => .ok (some (.obj o))
        | some _ =>
            .error ["Field meetingInfo.timestampedVideo: Input should be a valid dictionary"]
      return ⟨date, host, documenter, attendees, purpose, videoLinks, workingDocs,
        timestampedVideo⟩
  | _ => .error ["Field meetingInfo: Input should be a valid dictionary"]

/-- `AgendaItem.validate_action_items` (`mode="before"`): `null` becomes the
empty list, non-lists pass through, and list elements survive exactly when
they are objects carrying a `text` key. -/
def validate_action_items : Json → Json
  | .null => .arr []
  | .arr items =>
      .arr (items.filter fun item =>
        match item with
        | .obj fields => (fields.lookup "text").isSome
        | _ => false)
  | v => v

/-- `AgendaItem.validate_discussion_points` (`mode="before"`): `null`
becomes the empty list, non-lists pass through; in a list, a string becomes
`{point: s}`, an object keeps a present `point` key, an otherwise
single-key object contributes its value as the point, other objects pass
unchanged, and any other value is string-coerced into a point. -/
def str_coerce : Json → String
  | .null => "None"
  | .bool b => if b then "True" else "False"
  | .num n => toString n
  | .str s => s
  | .arr _ => "[...]"
  | .obj _ => "\x7b...\x7d"

def normalize_discussion_point (item : Json) : Json :=
  match item with
  | .str s => .obj [("point", .str s)]
  | .obj fields =>
      if (fields.lookup "point").isSome then .obj fields
      else
        match fields with
        | [(_k, v)] => .obj [("point", v)]
        | _ => .obj fields
  | other => .obj [("point", .str (str_coerce other))]

def validate_discussion_points : Json → Json
  | .null => .arr []
  | .arr items => .arr (items.map normalize_discussion_point)
  | v => v

/-- Parse one `ActionItem`. -/
def parseActionItem (j : Json) : Except Errors ActionItemModel := do
  match j with
  | .obj fields =>
      let id ← parseOptUuidStr "actionItems.id" (fields.lookup "id")
      let text ← parseReqStr "actionItems.text" (fields.lookup "text")
      if strip text = "" then
        .error ["Field actionItems.text: Action item text cannot be empty"]
      else
        let assignee ← parseOptStr "actionItems.assignee" (fields.lookup "assignee")
        let dueDate ← parseOptStr "actionItems.dueDate" (fields.lookup "dueDate")
        let status ← parseOptStr "actionItems.status" (fields.lookup "status")
        return ⟨id, strip text, assignee, dueDate, status⟩
  | _ => .error ["Field actionItems: Input should be a valid dictionary"]

/-- Parse one `DecisionItem`. -/
def parseDecisionItem (j : Json) : Except Errors DecisionItemModel := do
  match j with
  | .obj fields =>
      let id ← parseOptUuidStr "decisionItems.id" (fields.lookup "id")
      let decision ← parseReqStr "decisionItems.decision" (fields.lookup "decision")
      if strip decision = "" then
        .error ["Field decisionItems.decision: Decision text cannot be empty"]
      else
        let rationale ← parseOptStr "decisionItems.rationale" (fields.lookup "rationale")
        let effectScope ← parseOptStr "decisionItems.effectScope" (fields.lookup "effectScope")
        return ⟨id, strip decision, rationale, effectScope⟩
  | _ => .error ["Field decisionItems: Input should be a valid dictionary"]

/-- Parse one `DiscussionPoint` (after normalization). -/
def parseDiscussionPoint (j : Json) : Except Errors DiscussionPointModel := do
  match j with
  | .obj fields =>
      let id ← parseOptUuidStr "discussionPoints.id" (fields.lookup "id")
      let point ← parseReqStr "discussionPoints.point" (fields.lookup "point")
      if strip point = "" then
        .error ["Field discussionPoints.point: Discussion point text cannot be empty"]
      else
        return ⟨id, strip point⟩
  | _ => .error ["Field discussionPoints: Input should be a valid dictionary"]

/-- Parse one `AgendaItem`: run the `mode="before"` normalizers, then the
typed field validation. -/
def parseAgendaItem (j : Json) : Except Errors AgendaItemModel := do
  match j with
  | .obj fields =>
      let id ← parseOptUuidStr "agendaItems.id" (fields.lookup "id")
      let status ← parseOptStr "agendaItems.status" (fields.lookup "status")
      let actionItems ←
        match fields.lookup "actionItems" with
        | none => .ok []
        | some v =>
            match validate_action_items v with
            | .arr items => items.mapM parseActionItem
            | _ => .error ["Field agendaItems.actionItems: Input should be a valid list"]
      let decisionItems ←
        match fields.lookup "decisionItems" with
        | none => .ok []
        | some .null => .ok []
        | some (.arr items) => items.mapM parseDecisionItem
        | some _ => .error ["Field agendaItems.decisionItems: Input should be a valid list"]
      let discussionPoints ←
        match fields.lookup "discussionPoints" with
        | none => .ok []
        | some v =>
            match validate_discussion_points v with
            | .arr items => items.mapM parseDiscussionPoint
            | _ => .error ["Field agendaItems.discussionPoints: Input should be a valid list"]
      return ⟨id, status, actionItems, decisionItems, discussionPoints⟩
  | _ => .error ["Field agendaItems: Input should be a valid dictionary"]

/-- The declared top-level field names of `MeetingSummary`; every other key
is retained by `extra="allow"`. -/
def meetingSummaryFieldNames : List String :=
  ["workgroup", "workgroup_id", "meetingInfo", "agendaItems", "tags", "type"]

/-- `MeetingSummary(**record)`: the full record gate for one record. -/
def parseMeetingSummary (j : Json) : Except Errors MeetingSummary := do
  match j with
  | .obj fields =>
      let workgroup ← parseReqStr "workgroup" (fields.lookup "workgroup")
      if workgroup = "" || strip workgroup = "" then
        .error ["Field workgroup: Workgroup name cannot be empty"]
      else
        let wgId ← parseReqStr "workgroup_id" (fields.lookup "workgroup_id")
        if !validate_uuid wgId then
          .error [s!"Field workgroup_id: Invalid workgroup_id UUID format: {wgId}"]
        else
          match fields.lookup "meetingInfo" with
          | none => .error ["Field meetingInfo: Field required"]
          | some mi =>
              let meetingInfo ← parseMeetingInfo mi
              let agendaItems ←
                match fields.lookup "agendaItems" with
                | none => .ok []
                | some (.arr items) => items.mapM parseAgendaItem
                | some _ => .error ["Field agendaItems: Input should be a valid list"]
              let tags ←
                match fields.lookup "tags" with
                | none => .ok (some (.obj []))
                | some .null => .ok none
                | some (.obj o) => .ok (some (.obj o))
                | some _ => .error ["Field tags: Input should be a valid dictionary"]
              let type ← parseOptStr "type" (fields.lookup "type")
              return ⟨strip workgroup, wgId, meetingInfo, agendaItems, tags, type,
                fields.filter fun f => !meetingSummaryFieldNames.contains f.1⟩
  | _ => .error ["Validation error: argument of type record is not a mapping"]

/-! ## `model_dump` (pydantic serialization)

`meeting.model_dump()` rebuilds the JSON of the validated model: declared
fields in declaration order (with `None` as `null`), then — only on
`MeetingSummary` — the retained extra fields in input order.  Extra keys of
sub-models were dropped at parse time and do not reappear. -/

def optStrJson : Option String → Json
  | none => .null
  | some s => .str s

def MeetingInfo.model_dump (mi : MeetingInfo) : Json :=
  .obj [("date", .str mi.date), ("host", optStrJson mi.host),
    ("documenter", optStrJson mi.documenter),
    ("attendees", .arr (mi.attendees.map Json.str)),
    ("purpose", optStrJson mi.purpose),
    ("videoLinks", .arr (mi.videoLinks.map Json.str)),
    ("workingDocs", match mi.workingDocs with | none => .null | some l => .arr l),
    ("timestampedVideo", match mi.timestampedVideo with | none => .null | some j => j)]

def ActionItemModel.model_dump (a : ActionItemModel) : Json :=
  .obj [("id", optStrJson a.id), ("text", .str a.text),
    ("assignee", optStrJson a.assignee), ("dueDate", optStrJson a.dueDate),
    ("status", optStrJson a.status)]

def DecisionItemModel.model_dump (d : DecisionItemModel) : Json :=
  .obj [("id", optStrJson d.id), ("decision", .str d.decision),
    ("rationale", optStrJson d.rationale), ("effectScope", optStrJson d.effectScope)]

def DiscussionPointModel.model_dump (p : DiscussionPointModel) : Json :=
  .obj [("id", optStrJson p.id), ("point", .str p.point)]

def AgendaItemModel.model_dump (a : AgendaItemModel) : Json :=
  .obj [("id", optStrJson a.id), ("status", optStrJson a.status),
    ("actionItems", .arr (a.actionItems.map ActionItemModel.model_dump)),
    ("decisionItems", .arr (a.decisionItems.map DecisionItemModel.model_dump)),
    ("discussionPoints", .arr (a.discussionPoints.map DiscussionPointModel.model_dump))]

def MeetingSummary.model_dump (m : MeetingSummary) : Json :=
  .obj ([("workgroup", .str m.workgroup), ("workgroup_id", .str m.workgroup_id),
    ("meetingInfo", m.meetingInfo.model_dump),
    ("agendaItems", .arr (m.agendaItems.map AgendaItemModel.model_dump)),
    ("tags", match m.tags with | none => .null | some t => t),
    ("type", optStrJson m.type)] ++ m.extra)

/-! ## Validator service (`src/services/json_validator.py`) -/

/-- Structure-gate errors of `validate_json_structure_compatibility`: the
first record is probed for the required top-level fields, an object
`meetingInfo` carrying `date`, an array `agendaItems`, and — for the first
five agenda items — array-typed nested collections when present.  An empty
document passes.  (A non-object first record makes the Python membership
tests raise; the source is aborted either way, so it is folded into the
error path here.) -/
def structure_errors (jsonData : List Json) : List String :=
  match jsonData with
  | [] => []
  | sample :: _ =>
      let required := ["workgroup", "workgroup_id", "meetingInfo", "agendaItems", "tags", "type"]
      let missing := (required.filter fun f => (sample.getField f).isNone).map
        fun f => "Missing required field: " ++ f
      let miErrors :=
        match sample.getField "meetingInfo" with
        | none => []
        | some (.obj miFields) =>
            if (miFields.lookup "date").isNone then ["Missing required field: meetingInfo.date"]
            else []
        | some _ => ["meetingInfo must be an object"]
      let aiErrors :=
        match sample.getField "agendaItems" with
        | none => []
        | some (.arr items) =>
            ((items.take 5).enum.flatMap fun (idx, item) =>
              match item with
              | .obj f =>
                  (match f.lookup "actionItems" with
                   | some (.arr _) => [] | none => []
                   | some _ => [s!"agendaItems[{idx}].actionItems must be an array"]) ++
                  (match f.lookup "decisionItems" with
                   | some (.arr _) => [] | none => []
                   | some _ => [s!"agendaItems[{idx}].decisionItems must be an array"]) ++
                  (match f.lookup "discussionPoints" with
                   | some (.arr _) => [] | none => []
                   | some _ => [s!"agendaItems[{idx}].discussionPoints must be an array"])
              | _ => [])
        | some _ => ["agendaItems must be an array"]
      let sampleObjErrors :=
        match sample with
        | .obj _ => []
        | _ => ["first record is not an object"]
      missing ++ miErrors ++ aiErrors ++ sampleObjErrors

/-- `JSONValidator.validate_structure`: true when the structure gate finds
no error. -/
def validate_structure (jsonData : List Json) : Bool :=
  (structure_errors jsonData).isEmpty

/-- `validate_record`: parse one record into the strict model, or report
errors. -/
def validate_record (record : Json) : Except Errors MeetingSummary :=
  parseMeetingSummary record

/-- `JSONValidator.validate_records`: fold every record through
`validate_record`, collecting valid models and invalid records (with their
errors), each in input order. -/
def validate_records : List Json → List MeetingSummary × List (Json × Errors)
  | [] => ([], [])
  | r :: rest =>
      let tail := validate_records rest
      match validate_record r with
      | .ok m => (m :: tail.1, tail.2)
      | .error e => (tail.1, (r, e) :: tail.2)

/-! ## Store model

The six entity tables, each an insertion-ordered association list keyed by
UUID — the row set a relational table holds, with list order standing in
for insertion order.  `created_at` and `updated_at` are transaction-clock
audit columns and are outside the embedding.

The `upsert_*` SQL primitives are not part of the repository's Python
sources.  Modelled from the spec: each primitive takes the primary key and
all normalized attributes, inserts on a fresh key, and on conflict of the
primary key updates all attributes. -/

structure WorkgroupRow where
  name : String
  raw_json : Json

structure MeetingRow where
  workgroup_id : UUID
  date : Date
  type : Option String
  host : Option String
  documenter : Option String
  attendees : List String
  purpose : Option String
  video_links : List String
  working_docs : Option (List Json)
  timestamped_video : Option Json
  tags : Json
  raw_json : Json

structure AgendaRow where
  meeting_id : UUID
  status : Option String
  order_index : Nat
  raw_json : Json

structure ActionRow where
  agenda_item_id : UUID
  text : String
  assignee : Option String
  due_date : Option Date
  status : Option String
  raw_json : Json

structure DecisionRow where
  agenda_item_id : UUID
  decision_text : String
  rationale : Option String
  effect_scope : Option String
  raw_json : Json

structure DiscussionRow where
  agenda_item_id : UUID
  point_text : String
  raw_json : Json

/-- A row of `ingestion_runs` (read by `backend/app/api/runs.py` and the KPI
view; the schema owns the table).  Present in the store model so that run
accounting is observable; the ingestion path in `src/` performs no write to
it. -/
structure RunRow where
  status : String
  records_processed : Nat
  records_failed : Nat
  duplicates_avoided : Nat

/-- The persisted store: the six entity tables plus `ingestion_runs`. -/
structure DBState where
  workgroups : List (UUID × WorkgroupRow)
  meetings : List (UUID × MeetingRow)
  agenda_items : List (UUID × AgendaRow)
  action_items : List (UUID × ActionRow)
  decision_items : List (UUID × DecisionRow)
  discussion_points : List (UUID × DiscussionRow)
  ingestion_runs : List (UUID × RunRow)

/-- The empty store. -/
def DBState.empty : DBState := ⟨[], [], [], [], [], [], []⟩

/-- Modelled from the spec: primary-key UPSERT into one table — update in
place on a key hit, append otherwise. -/
def upsertRow {α : Type} (table : List (UUID × α)) (k : UUID) (v : α) : List (UUID × α) :=
  if table.any (fun e => e.1 = k) then
    table.map fun e => if e.1 = k then (k, v) else e
  else
    table ++ [(k, v)]

/-- One writer call against the store, one constructor per `upsert_*`
primitive used inside the per-meeting transaction. -/
inductive WriteOp where
  | meeting (id : UUID) (row : MeetingRow)
  | agenda (id : UUID) (row : AgendaRow)
  | action (id : UUID) (row : ActionRow)
  | decision (id : UUID) (row : DecisionRow)
  | discussion (id : UUID) (row : DiscussionRow)

/-- Apply one upsert to the store. -/
def applyOp (s : DBState) : WriteOp → DBState
  | .meeting id row => { s with meetings := upsertRow s.meetings id row }
  | .agenda id row => { s with agenda_items := upsertRow s.agenda_items id row }
  | .action id row => { s with action_items := upsertRow s.action_items id row }
  | .decision id row => { s with decision_items := upsertRow s.decision_items id row }
  | .discussion id row => { s with discussion_points := upsertRow s.discussion_points id row }

/-- Apply a transaction's upserts in order (commit). -/
def applyOps (s : DBState) (ops : List WriteOp) : DBState := ops.foldl applyOp s

/-! ## Writer (`IngestionService._process_single_meeting`)

Identity derivation and the per-meeting transaction.  A meeting's
transaction is the list of upserts it would perform; a failure anywhere in
it yields an error and no upsert is applied (rollback). -/

/-- `MEETING_NAMESPACE` (the DNS namespace constant). -/
def MEETING_NAMESPACE : UUID := ⟨0x6ba7b8109dad11d180b400c04fd430c8, by norm_num⟩

/-- `AGENDA_ITEM_NAMESPACE`. -/
def AGENDA_ITEM_NAMESPACE : UUID := ⟨0x6ba7b8119dad11d180b400c04fd430c8, by norm_num⟩

/-- `ACTION_ITEM_NAMESPACE`. -/
def ACTION_ITEM_NAMESPACE : UUID := ⟨0x6ba7b8129dad11d180b400c04fd430c8, by norm_num⟩

/-- `DECISION_ITEM_NAMESPACE`. -/
def DECISION_ITEM_NAMESPACE : UUID := ⟨0x6ba7b8139dad11d180b400c04fd430c8, by norm_num⟩

/-- `DISCUSSION_POINT_NAMESPACE`. -/
def DISCUSSION_POINT_NAMESPACE : UUID := ⟨0x6ba7b8149dad11d180b400c04fd430c8, by norm_num⟩

/-- The key-fields string hashed for a derived meeting id:
`"{workgroup_id}:{meeting_date}:{host or ''}:{purpose or ''}:{agenda_count}"`
(`workgroup_id` printed canonically, the date in ISO form). -/
def meetingKeyFields (wgId : UUID) (mdate : Date) (m : MeetingSummary) : String :=
  let host_str := m.meetingInfo.host.getD ""
  let purpose_str := m.meetingInfo.purpose.getD ""
  let agenda_count := m.agendaItems.length
  uuidToString wgId ++ ":" ++ dateToString mdate ++ ":" ++ host_str ++ ":" ++
    purpose_str ++ ":" ++ toString agenda_count

/-- First 16 hex characters of the SHA-256 of the key fields. -/
def meetingContentHash (wgId : UUID) (mdate : Date) (m : MeetingSummary) : String :=
  (SHA256.hexdigest (utf8Encode (meetingKeyFields wgId mdate m))).take 16

/-- The derived (no source UUID) meeting id:
`uuid5(MEETING_NAMESPACE, "{workgroup_id}:{date}:{hash16}")`. -/
def deriveMeetingId (wgId : UUID) (mdate : Date) (m : MeetingSummary) : UUID :=
  uuid5 MEETING_NAMESPACE
    (uuidToString wgId ++ ":" ++ dateToString mdate ++ ":" ++ meetingContentHash wgId mdate m)

/-- The source-supplied meeting id, when the record retained a truthy `id`
extra field that `uuid.UUID` accepts (a non-string raises
`AttributeError`, which the writer swallows). -/
def sourceMeetingId (m : MeetingSummary) : Option UUID :=
  match m.extra.lookup "id" with
  | some (.str s) => if s = "" then none else uuidParse s
  | _ => none

/-- The meeting id the writer uses. -/
def meetingIdOf (wgId : UUID) (mdate : Date) (m : MeetingSummary) : UUID :=
  match sourceMeetingId m with
  | some u => u
  | none => deriveMeetingId wgId mdate m

/-- A nested entity's id: the (already UUID-validated) source id when
truthy, else the deterministic `uuid5` over the parent id, the kind tag and
the order index. -/
def childIdOf (sourceId : Option String) (ns : UUID) (parentId : UUID) (kind : String)
    (idx : Nat) : UUID :=
  match sourceId with
  | some s =>
      if s = "" then uuid5 ns (uuidToString parentId ++ ":" ++ kind ++ ":" ++ toString idx)
      else
        match uuidParse s with
        | some u => u
        | none => uuid5 ns (uuidToString parentId ++ ":" ++ kind ++ ":" ++ toString idx)
  | none => uuid5 ns (uuidToString parentId ++ ":" ++ kind ++ ":" ++ toString idx)

/-- The writer's due-date handling: parse when truthy, keep `NULL` when
parsing fails. -/
def dueDateOf (dueDate : Option String) : Option Date :=
  match dueDate with
  | none => none
  | some s => (parse_date (.str s)).map DateTime.toDate

/-- Upserts for one agenda item and its children, in document order. -/
def agendaOps (meetingId : UUID) (idx : Nat) (item : AgendaItemModel) : List WriteOp :=
  let aid := childIdOf item.id AGENDA_ITEM_NAMESPACE meetingId "agenda" idx
  [WriteOp.agenda aid ⟨meetingId, item.status, idx, item.model_dump⟩] ++
  (item.actionItems.enum.map fun (i, a) =>
    WriteOp.action (childIdOf a.id ACTION_ITEM_NAMESPACE aid "action" i)
      ⟨aid, a.text, a.assignee, dueDateOf a.dueDate, a.status, a.model_dump⟩) ++
  (item.decisionItems.enum.map fun (i, d) =>
    WriteOp.decision (childIdOf d.id DECISION_ITEM_NAMESPACE aid "decision" i)
      ⟨aid, d.decision, d.rationale, d.effectScope, d.model_dump⟩) ++
  (item.discussionPoints.enum.map fun (i, p) =>
    WriteOp.discussion (childIdOf p.id DISCUSSION_POINT_NAMESPACE aid "discussion" i)
      ⟨aid, p.point, p.model_dump⟩)

/-- `_process_single_meeting`: the transaction for one validated record —
parse the workgroup id and the date, fix the meeting id, reject deep or
cyclic `raw_json`, then emit the meeting upsert followed by every nested
upsert in document order.  An error means the transaction rolled back. -/
def processSingleMeeting (m : MeetingSummary) : Except String (List WriteOp) := do
  let wgId ← match uuidParse m.workgroup_id with
    | some u => Except.ok u
    | none => Except.error ("badly formed hexadecimal UUID string: " ++ m.workgroup_id)
  let mdate ← match parse_date (.str m.meetingInfo.date) with
    | some dt => Except.ok dt.toDate
    | none => Except.error ("Invalid date format: " ++ m.meetingInfo.date)
  let meeting_id := meetingIdOf wgId mdate m
  let raw_json := m.model_dump
  if detect_circular_reference raw_json 10 then
    Except.error "Circular reference detected in meeting data"
  else
    Except.ok
      ([WriteOp.meeting meeting_id
        ⟨wgId, mdate, m.type, m.meetingInfo.host, m.meetingInfo.documenter,
          m.meetingInfo.attendees, m.meetingInfo.purpose, m.meetingInfo.videoLinks,
          m.meetingInfo.workingDocs, m.meetingInfo.timestampedVideo,
          (m.tags.getD (.obj [])), raw_json⟩] ++
      m.agendaItems.enum.flatMap fun (idx, item) => agendaOps meeting_id idx item)

/-! ## Workgroup pre-processing (`src/services/schema_manager.py`) and the
meeting loop (`IngestionService.process_meetings`) -/

/-- `extract_unique_workgroups`: map each distinct `workgroup_id` (first
occurrence wins) to its name and provenance JSON — the first original JSON
record of that workgroup when original records were passed, else the
model's dump.  An original record whose `workgroup_id` is missing, not a
string, or not a UUID raises (`uuid.UUID` on it fails), which aborts the
whole source. -/
def extract_unique_workgroups (meetings : List MeetingSummary)
    (originalJson : Option (List Json)) :
    Except String (List (UUID × WorkgroupRow)) := do
  let jsonByWorkgroup ←
    match originalJson with
    | none => Except.ok ([] : List (UUID × Json))
    | some records =>
        records.foldlM (fun (acc : List (UUID × Json)) record =>
          match record.getField "workgroup_id" with
          | some (.str s) =>
              match uuidParse s with
              | some wgId =>
                  if acc.any (fun e => e.1 = wgId) then Except.ok acc
                  else Except.ok (acc ++ [(wgId, record)])
              | none => Except.error ("badly formed hexadecimal UUID string: " ++ s)
          | _ => Except.error "workgroup_id missing or not a string in original record")
          []
  meetings.foldlM (fun (acc : List (UUID × WorkgroupRow)) m =>
    match uuidParse m.workgroup_id with
    | none => Except.error ("badly formed hexadecimal UUID string: " ++ m.workgroup_id)
    | some wgId =>
        if acc.any (fun e => e.1 = wgId) then Except.ok acc
        else
          let raw_json :=
            match jsonByWorkgroup.lookup wgId with
            | some record => record
            | none => m.model_dump
          Except.ok (acc ++ [(wgId, ⟨m.workgroup, raw_json⟩)]))
    []

/-- `SchemaManager.upsert_workgroups`: one `upsert_workgroup` call per
extracted workgroup, in extraction order, each committing individually on
the acquired connection (the loop opens no transaction).  `failing` models
a store-level failure of a particular upsert (connection loss, SQL error);
the raised error carries the state already committed before the failure. -/
def upsert_workgroups (failing : UUID → Bool) :
    List (UUID × WorkgroupRow) → DBState → Except (String × DBState) DBState
  | [], s => .ok s
  | (k, v) :: rest, s =>
      if failing k then .error ("workgroup upsert failed", s)
      else upsert_workgroups failing rest { s with workgroups := upsertRow s.workgroups k v }

/-- The statistics dictionary `process_meetings` returns. -/
structure Stats where
  processed : Nat
  succeeded : Nat
  failed : Nat
  workgroups_created : Nat
  deriving DecidableEq

/-- `_validate_meeting_structure` (dry-run path). -/
def validateMeetingStructure (m : MeetingSummary) : Bool :=
  m.workgroup_id ≠ "" && m.meetingInfo.date ≠ ""

/-- The body of the meeting loop for one record: succeed (committing the
record's transaction) or fail (rolling it back and counting the failure);
a failure never stops the loop. -/
def processOneRecord (dryRun : Bool) (acc : Stats × DBState) (m : MeetingSummary) :
    Stats × DBState :=
  let (stats, s) := acc
  if dryRun then
    if validateMeetingStructure m then
      ({ stats with processed := stats.processed + 1, succeeded := stats.succeeded + 1 }, s)
    else
      ({ stats with failed := stats.failed + 1 }, s)
  else
    match processSingleMeeting m with
    | .ok ops =>
        ({ stats with processed := stats.processed + 1, succeeded := stats.succeeded + 1 },
          applyOps s ops)
    | .error _ => ({ stats with failed := stats.failed + 1 }, s)

/-- `IngestionService.process_meetings`: extract the unique workgroups,
upsert them all (one by one, before any meeting), then run every meeting
through its own transaction; record failures are isolated, but an
extraction or workgroup-upsert failure propagates and aborts the source
with whatever that phase had already committed. -/
def process_meetings (meetings : List MeetingSummary) (originalJson : Option (List Json))
    (dryRun : Bool) (failing : UUID → Bool) (s : DBState) :
    Except (String × DBState) (Stats × DBState) := do
  if meetings.isEmpty then
    return (⟨0, 0, 0, 0⟩, s)
  let workgroups ←
    match extract_unique_workgroups meetings originalJson with
    | .ok wgs => Except.ok wgs
    | .error e => Except.error (e, s)
  let s ← if dryRun then Except.ok s else upsert_workgroups failing workgroups s
  let wgCreated := if dryRun then 0 else workgroups.length
  let (stats, s) := meetings.foldl (processOneRecord dryRun) (⟨0, 0, 0, wgCreated⟩, s)
  return (stats, s)

/-! ## The per-source pipeline (`src/cli/ingest.py:_run_ingestion`) -/

/-- What one source's processing reported. -/
inductive SourceOutcome where
  | structureFailed
  | sourceError (msg : String)
  | processed (stats : Stats) (recordsSkipped : Nat)

/-- One source, as `_run_ingestion` drives it once the document is in hand:
structure gate, record gate, then `process_meetings` over the valid records
with the raw document as `original_json_records`.  Any exception escaping
`process_meetings` is caught per source (`source_processing_failed`),
keeping whatever had committed. -/
def ingestSource (jsonData : List Json) (dryRun : Bool) (s : DBState) :
    SourceOutcome × DBState :=
  if !validate_structure jsonData then
    (.structureFailed, s)
  else
    let (validRecords, invalidRecords) := validate_records jsonData
    if validRecords.isEmpty then
      (.processed ⟨0, 0, 0, 0⟩ invalidRecords.length, s)
    else
      match process_meetings validRecords (some jsonData) dryRun (fun _ => false) s with
      | .ok (stats, s') => (.processed stats invalidRecords.length, s')
      | .error (msg, s') => (.sourceError msg, s')

/-! ## KPI endpoint (`backend/app/api/kpis.py:get_kpis`)

The endpoint reads the single row of `mv_ingestion_kpis`.  The database
fetch is abstracted as the value the query would produce: an error (the
`except` path, surfaced as HTTP 500), no row, or the row.  `success_rate`
is a numeric column; it is carried as `ℚ` (only the constant `100.0`
appears in the code itself). -/

/-- The five KPI columns of `mv_ingestion_kpis`. -/
structure KpiRow where
  total_ingested : Nat
  sources_count : Nat
  success_rate : Rat
  duplicates_avoided : Nat
  last_run_timestamp : Option String
  deriving DecidableEq

/-- What the endpoint returns. -/
inductive KpiResult where
  | ok (row : KpiRow)
  | httpError (status : Nat) (detail : String)
  deriving DecidableEq

/-- The empty-store KPI payload. -/
def emptyKpis : KpiRow := ⟨0, 0, 100, 0, none⟩

/-- `get_kpis`: an unset (or empty) `DATABASE_URL` and an empty view both
produce the empty payload; a fetched row is returned as-is; a fetch
failure is a 500. -/
def get_kpis (databaseUrl : Option String) (fetchRow : Except String (Option KpiRow)) :
    KpiResult :=
  match databaseUrl with
  | none => .ok emptyKpis
  | some url =>
      if url = "" then .ok emptyKpis
      else
        match fetchRow with
        | .error e => .httpError 500 ("Error fetching KPIs: " ++ e)
        | .ok none => .ok emptyKpis
        | .ok (some row) => .ok row

/-! ## Algebra of the upsert primitive

Helper lemmas about `upsertRow` viewed through a table's key sequence and
its key→row lookup; culminating in idempotence of replaying a write list,
which carries the re-ingest claims. -/

/-- The key sequence of a table. -/
def tableKeys {α : Type} (t : List (UUID × α)) : List UUID := t.map Prod.fst

/-- Primary-key lookup (first matching row). -/
def lookupRow {α : Type} (t : List (UUID × α)) (k : UUID) : Option α :=
  (t.find? (fun e => e.1 = k)).map Prod.snd

/-- Replay a list of keyed writes, in order. -/
def upsertList {α : Type} (t : List (UUID × α)) (ps : List (UUID × α)) : List (UUID × α) :=
  ps.foldl (fun acc p => upsertRow acc p.1 p.2) t

/-- The last value a write list assigns to a key. -/
def lastVal {α : Type} : List (UUID × α) → UUID → Option α
  | [], _ => none
  | p :: rest, k =>
      match lastVal rest k with
      | some v => some v
      | none => if p.1 = k then some p.2 else none

theorem mem_tableKeys_iff_any {α : Type} (t : List (UUID × α)) (k : UUID) :
    k ∈ tableKeys t ↔ t.any (fun e => e.1 = k) = true := by
  induction t with
  | nil => simp [tableKeys]
  | cons e rest ih =>
      simp only [tableKeys, List.map_cons, List.mem_cons, List.any_cons, Bool.or_eq_true,
        decide_eq_true_eq]
      rw [show (k ∈ List.map Prod.fst rest) = (k ∈ tableKeys rest) from rfl, ih]
      constructor
      · rintro (h | h)
        · exact Or.inl h.symm
        · exact Or.inr h
      · rintro (h | h)
        · exact Or.inl h.symm
        · exact Or.inr h
theorem tableKeys_upsertRow {α : Type} (t : List (UUID × α)) (k : UUID) (v : α) :
    tableKeys (upsertRow t k v) =
      if k ∈ tableKeys t then tableKeys t else tableKeys t ++ [k] := by
  by_cases h : k ∈ tableKeys t
  · rw [if_pos h]
    unfold upsertRow
    rw [if_pos ((mem_tableKeys_iff_any t k).mp h)]
    unfold tableKeys
    rw [List.map_map]
    apply List.map_congr_left
    intro e _
    by_cases he : e.1 = k
    · simp only [Function.comp_apply, if_pos he]
      exact he.symm
    · simp only [Function.comp_apply, if_neg he]
  · rw [if_neg h]
    unfold upsertRow
    rw [if_neg (fun hc => h ((mem_tableKeys_iff_any t k).mpr hc))]
    unfold tableKeys
    rw [List.map_append]
    rfl

theorem lookupRow_eq_none_of_not_mem {α : Type} (t : List (UUID × α)) (k : UUID)
    (h : k ∉ tableKeys t) : lookupRow t k = none := by
  unfold lookupRow
  rw [List.find?_eq_none.mpr]
  · rfl
  · intro e he
    simp only [decide_eq_true_eq]
    intro hk
    exact h ((mem_tableKeys_iff_any t k).mpr (List.any_eq_true.mpr ⟨e, he, by
      simp only [decide_eq_true_eq]; exact hk⟩))

theorem find?_map_replace {α : Type} (t : List (UUID × α)) (k : UUID) (v : α)
    (h : t.any (fun e => e.1 = k) = true) :
    (t.map fun e => if e.1 = k then (k, v) else e).find? (fun e => e.1 = k) = some (k, v) := by
  induction t with
  | nil => simp at h
  | cons e rest ih =>
      by_cases he : e.1 = k
      · simp only [List.map_cons, if_pos he]
        rw [List.find?_cons_of_pos _ (by simp only [decide_eq_true_eq])]
      · simp only [List.any_cons, Bool.or_eq_true, decide_eq_true_eq] at h
        rcases h with h | h
        · exact absurd h he
        · simp only [List.map_cons, if_neg he]
          rw [List.find?_cons_of_neg _ (by simp only [decide_eq_true_eq]; exact he)]
          exact ih h
theorem lookupRow_upsertRow_self {α : Type} (t : List (UUID × α)) (k : UUID) (v : α) :
    lookupRow (upsertRow t k v) k = some v := by
  unfold upsertRow
  by_cases h : t.any (fun e => e.1 = k) = true
  · rw [if_pos h]
    unfold lookupRow
    rw [find?_map_replace t k v h]
    rfl
  · rw [if_neg h]
    unfold lookupRow
    rw [List.find?_append]
    have hnone : t.find? (fun e => decide (e.1 = k)) = none := by
      rw [List.find?_eq_none]
      intro e he
      simp only [decide_eq_true_eq]
      intro hk
      exact h (List.any_eq_true.mpr ⟨e, he, by simp only [decide_eq_true_eq]; exact hk⟩)
    rw [hnone]
    rw [List.find?_cons_of_pos _ (by simp only [decide_eq_true_eq])]
    rfl

theorem find?_map_replace_ne {α : Type} (t : List (UUID × α)) (k k' : UUID) (v : α)
    (hne : k' ≠ k) :
    (t.map fun e => if e.1 = k then (k, v) else e).find? (fun e => e.1 = k') =
      t.find? (fun e => e.1 = k') := by
  induction t with
  | nil => rfl
  | cons e rest ih =>
      by_cases he : e.1 = k
      · have h1 : ¬ ((k, v).1 = k') := fun hc => hne hc.symm
        have h2 : ¬ (e.1 = k') := by rw [he]; exact fun hc => hne hc.symm
        simp only [List.map_cons, if_pos he]
        rw [List.find?_cons_of_neg _ (by simpa using h1),
          List.find?_cons_of_neg _ (by simpa using h2)]
        exact ih
      · simp only [List.map_cons, if_neg he]
        by_cases hp : e.1 = k'
        · rw [List.find?_cons_of_pos _ (by simpa using hp),
            List.find?_cons_of_pos _ (by simpa using hp)]
        · rw [List.find?_cons_of_neg _ (by simpa using hp),
            List.find?_cons_of_neg _ (by simpa using hp)]
          exact ih

theorem lookupRow_upsertRow_ne {α : Type} (t : List (UUID × α)) (k k' : UUID) (v : α)
    (hne : k' ≠ k) : lookupRow (upsertRow t k v) k' = lookupRow t k' := by
  unfold upsertRow
  by_cases h : t.any (fun e => e.1 = k) = true
  · rw [if_pos h]
    unfold lookupRow
    rw [find?_map_replace_ne t k k' v hne]
  · rw [if_neg h]
    unfold lookupRow
    rw [List.find?_append]
    have hlast : List.find? (fun e => decide (e.1 = k')) [(k, v)] = none := by
      rw [List.find?_eq_none]
      intro e he
      simp only [List.mem_singleton] at he
      subst he
      simp only [decide_eq_true_eq]
      exact fun hc => hne hc.symm
    rw [hlast]
    cases hfind : t.find? (fun e => decide (e.1 = k')) <;> rfl

theorem nodup_tableKeys_upsertRow {α : Type} (t : List (UUID × α)) (k : UUID) (v : α)
    (h : (tableKeys t).Nodup) : (tableKeys (upsertRow t k v)).Nodup := by
  rw [tableKeys_upsertRow]
  by_cases hm : k ∈ tableKeys t
  · rwa [if_pos hm]
  · rw [if_neg hm]
    exact List.Nodup.append h (List.nodup_singleton k) (by
      intro x hx hx'
      simp only [List.mem_singleton] at hx'
      exact hm (hx' ▸ hx))
theorem table_ext {α : Type} :
    ∀ (t u : List (UUID × α)), (tableKeys t).Nodup → tableKeys t = tableKeys u →
      (∀ k, lookupRow t k = lookupRow u k) → t = u := by
  intro t
  induction t with
  | nil =>
      intro u _ hkeys _
      cases u with
      | nil => rfl
      | cons e rest => simp [tableKeys] at hkeys
  | cons e rest ih =>
      intro u hnodup hkeys hlook
      cases u with
      | nil => simp [tableKeys] at hkeys
      | cons f urest =>
          simp only [tableKeys, List.map_cons, List.cons.injEq] at hkeys
          obtain ⟨hfst, htail⟩ := hkeys
          have hval : e.2 = f.2 := by
            have h1 := hlook e.1
            unfold lookupRow at h1
            rw [List.find?_cons_of_pos _ (by simp only [decide_eq_true_eq]),
              List.find?_cons_of_pos _ (by simp only [decide_eq_true_eq]; exact hfst.symm)] at h1
            simpa using h1
          have hnodup' : (tableKeys rest).Nodup := (List.nodup_cons.mp hnodup).2
          have hnotmem : e.1 ∉ tableKeys rest := (List.nodup_cons.mp hnodup).1
          have htails : rest = urest := by
            apply ih urest hnodup' htail
            intro k
            by_cases hk : k = e.1
            · have hnotmem2 : e.1 ∉ tableKeys urest := by
                unfold tableKeys
                rw [← htail]
                exact hnotmem
              rw [hk]
              rw [lookupRow_eq_none_of_not_mem rest e.1 hnotmem,
                lookupRow_eq_none_of_not_mem urest e.1 hnotmem2]
            · have hpe : ¬ (e.1 = k) := fun hc => hk hc.symm
              have hpf : ¬ (f.1 = k) := by rw [← hfst]; exact hpe
              have h1 := hlook k
              unfold lookupRow at h1 ⊢
              rw [List.find?_cons_of_neg _ (by simpa using hpe),
                List.find?_cons_of_neg _ (by simpa using hpf)] at h1
              exact h1
          have hheads : e = f := Prod.ext hfst hval
          rw [hheads, htails]

theorem upsertList_cons {α : Type} (t : List (UUID × α)) (p : UUID × α) (ps : List (UUID × α)) :
    upsertList t (p :: ps) = upsertList (upsertRow t p.1 p.2) ps := rfl

theorem nodup_tableKeys_upsertList {α : Type} (ps : List (UUID × α)) :
    ∀ t, (tableKeys t).Nodup → (tableKeys (upsertList t ps)).Nodup := by
  induction ps with
  | nil => intro t h; exact h
  | cons p rest ih =>
      intro t h
      rw [upsertList_cons]
      exact ih _ (nodup_tableKeys_upsertRow t p.1 p.2 h)

theorem lookupRow_upsertList {α : Type} (ps : List (UUID × α)) :
    ∀ (t : List (UUID × α)) (k : UUID),
      lookupRow (upsertList t ps) k =
        match lastVal ps k with
        | some v => some v
        | none => lookupRow t k := by
  induction ps with
  | nil => intro t k; rfl
  | cons p rest ih =>
      intro t k
      rw [upsertList_cons, ih]
      cases hl : lastVal rest k with
      | some v => simp only [lastVal, hl]
      | none =>
          simp only [lastVal, hl]
          by_cases hk : p.1 = k
          · rw [if_pos hk]
            subst hk
            rw [lookupRow_upsertRow_self]
          · rw [if_neg hk]
            rw [lookupRow_upsertRow_ne t p.1 k p.2 (fun hc => hk hc.symm)]

theorem mem_tableKeys_upsertList_of_mem {α : Type} (ps : List (UUID × α)) :
    ∀ (t : List (UUID × α)) (k : UUID), k ∈ tableKeys t → k ∈ tableKeys (upsertList t ps) := by
  induction ps with
  | nil => intro t k h; exact h
  | cons p rest ih =>
      intro t k h
      rw [upsertList_cons]
      apply ih
      rw [tableKeys_upsertRow]
      by_cases hm : p.1 ∈ tableKeys t
      · rwa [if_pos hm]
      · rw [if_neg hm]
        exact List.mem_append_left _ h

theorem mem_tableKeys_upsertList_of_write {α : Type} (ps : List (UUID × α)) :
    ∀ (t : List (UUID × α)) (p : UUID × α), p ∈ ps → p.1 ∈ tableKeys (upsertList t ps) := by
  induction ps with
  | nil => intro t p h; cases h
  | cons q rest ih =>
      intro t p h
      rw [upsertList_cons]
      rcases List.mem_cons.mp h with h | h
      · subst h
        apply mem_tableKeys_upsertList_of_mem
        rw [tableKeys_upsertRow]
        by_cases hm : p.1 ∈ tableKeys t
        · rwa [if_pos hm]
        · rw [if_neg hm]
          exact List.mem_append_right _ (List.mem_singleton.mpr rfl)
      · exact ih _ p h

theorem tableKeys_upsertList_of_covered {α : Type} (ps : List (UUID × α)) :
    ∀ (u : List (UUID × α)), (∀ p ∈ ps, p.1 ∈ tableKeys u) →
      tableKeys (upsertList u ps) = tableKeys u := by
  induction ps with
  | nil => intro u _; rfl
  | cons p rest ih =>
      intro u hcov
      rw [upsertList_cons]
      have hp : p.1 ∈ tableKeys u := hcov p (List.mem_cons_self p rest)
      have hkeys : tableKeys (upsertRow u p.1 p.2) = tableKeys u := by
        rw [tableKeys_upsertRow, if_pos hp]
      rw [ih _ (by
        intro q hq
        rw [hkeys]
        exact hcov q (List.mem_cons_of_mem p hq))]
      exact hkeys

/-- Replaying the same write list a second time does not change the table
(primary keys assumed unique, as the store's PK constraint guarantees). -/
theorem upsertList_idempotent {α : Type} (t : List (UUID × α)) (ps : List (UUID × α))
    (h : (tableKeys t).Nodup) :
    upsertList (upsertList t ps) ps = upsertList t ps := by
  apply table_ext
  · exact nodup_tableKeys_upsertList ps _ (nodup_tableKeys_upsertList ps t h)
  · exact tableKeys_upsertList_of_covered ps _ (fun p hp =>
      mem_tableKeys_upsertList_of_write ps t p hp)
  · intro k
    rw [lookupRow_upsertList, lookupRow_upsertList]
    cases hl : lastVal ps k with
    | some v => simp only [hl]
    | none => simp only [hl]

/-! ## State equations of the writer -/

theorem DBState.ext_tables {a b : DBState}
    (h1 : a.workgroups = b.workgroups) (h2 : a.meetings = b.meetings)
    (h3 : a.agenda_items = b.agenda_items) (h4 : a.action_items = b.action_items)
    (h5 : a.decision_items = b.decision_items)
    (h6 : a.discussion_points = b.discussion_points)
    (h7 : a.ingestion_runs = b.ingestion_runs) : a = b := by
  cases a
  cases b
  simp only [DBState.mk.injEq]
  exact ⟨h1, h2, h3, h4, h5, h6, h7⟩

/-- The meeting-table writes of an op list. -/
def meetingWrites (ops : List WriteOp) : List (UUID × MeetingRow) :=
  ops.filterMap fun op => match op with | .meeting id row => some (id, row) | _ => none

def agendaWrites (ops : List WriteOp) : List (UUID × AgendaRow) :=
  ops.filterMap fun op => match op with | .agenda id row => some (id, row) | _ => none

def actionWrites (ops : List WriteOp) : List (UUID × ActionRow) :=
  ops.filterMap fun op => match op with | .action id row => some (id, row) | _ => none

def decisionWrites (ops : List WriteOp) : List (UUID × DecisionRow) :=
  ops.filterMap fun op => match op with | .decision id row => some (id, row) | _ => none

def discussionWrites (ops : List WriteOp) : List (UUID × DiscussionRow) :=
  ops.filterMap fun op => match op with | .discussion id row => some (id, row) | _ => none

theorem applyOps_workgroups (ops : List WriteOp) :
    ∀ s : DBState, (applyOps s ops).workgroups = s.workgroups := by
  induction ops with
  | nil => intro s; rfl
  | cons op rest ih =>
      intro s
      show (applyOps (applyOp s op) rest).workgroups = _
      rw [ih]
      cases op <;> rfl

theorem applyOps_runs (ops : List WriteOp) :
    ∀ s : DBState, (applyOps s ops).ingestion_runs = s.ingestion_runs := by
  induction ops with
  | nil => intro s; rfl
  | cons op rest ih =>
      intro s
      show (applyOps (applyOp s op) rest).ingestion_runs = _
      rw [ih]
      cases op <;> rfl

theorem applyOps_meetings (ops : List WriteOp) :
    ∀ s : DBState, (applyOps s ops).meetings = upsertList s.meetings (meetingWrites ops) := by
  induction ops with
  | nil => intro s; rfl
  | cons op rest ih =>
      intro s
      show (applyOps (applyOp s op) rest).meetings = _
      rw [ih]
      cases op <;> rfl

theorem applyOps_agenda (ops : List WriteOp) :
    ∀ s : DBState,
      (applyOps s ops).agenda_items = upsertList s.agenda_items (agendaWrites ops) := by
  induction ops with
  | nil => intro s; rfl
  | cons op rest ih =>
      intro s
      show (applyOps (applyOp s op) rest).agenda_items = _
      rw [ih]
      cases op <;> rfl

theorem applyOps_action (ops : List WriteOp) :
    ∀ s : DBState,
      (applyOps s ops).action_items = upsertList s.action_items (actionWrites ops) := by
  induction ops with
  | nil => intro s; rfl
  | cons op rest ih =>
      intro s
      show (applyOps (applyOp s op) rest).action_items = _
      rw [ih]
      cases op <;> rfl

theorem applyOps_decision (ops : List WriteOp) :
    ∀ s : DBState,
      (applyOps s ops).decision_items = upsertList s.decision_items (decisionWrites ops) := by
  induction ops with
  | nil => intro s; rfl
  | cons op rest ih =>
      intro s
      show (applyOps (applyOp s op) rest).decision_items = _
      rw [ih]
      cases op <;> rfl

theorem applyOps_discussion (ops : List WriteOp) :
    ∀ s : DBState,
      (applyOps s ops).discussion_points =
        upsertList s.discussion_points (discussionWrites ops) := by
  induction ops with
  | nil => intro s; rfl
  | cons op rest ih =>
      intro s
      show (applyOps (applyOp s op) rest).discussion_points = _
      rw [ih]
      cases op <;> rfl

theorem applyOps_append (s : DBState) (a b : List WriteOp) :
    applyOps s (a ++ b) = applyOps (applyOps s a) b :=
  List.foldl_append _ _ _ _

/-- The writes a record contributes: its transaction's ops on success,
nothing on rollback. -/
def recordOps (m : MeetingSummary) : List WriteOp :=
  match processSingleMeeting m with
  | .ok ops => ops
  | .error _ => []

theorem processOneRecord_state (st : Stats) (s : DBState) (m : MeetingSummary) :
    (processOneRecord false (st, s) m).2 = applyOps s (recordOps m) := by
  unfold processOneRecord recordOps
  cases h : processSingleMeeting m with
  | ok ops => simp only [h, Bool.false_eq_true, if_false]
  | error e => simp only [h, Bool.false_eq_true, if_false]; rfl

/-- The meeting loop applies exactly the concatenation of the per-record
write lists, whatever the interleaved failures. -/
theorem loop_state (L : List MeetingSummary) :
    ∀ (st : Stats) (s : DBState),
      (L.foldl (processOneRecord false) (st, s)).2 = applyOps s (L.flatMap recordOps) := by
  induction L with
  | nil => intro st s; rfl
  | cons m rest ih =>
      intro st s
      have hstep : processOneRecord false (st, s) m =
          ((processOneRecord false (st, s) m).1, applyOps s (recordOps m)) := by
        rw [← processOneRecord_state st s m]
      show (rest.foldl (processOneRecord false) (processOneRecord false (st, s) m)).2 = _
      rw [hstep, ih, List.flatMap_cons, applyOps_append]

/-- With no store failure, the workgroup phase commits every extracted
workgroup, in order, and touches nothing else. -/
theorem upsert_workgroups_ok (wgs : List (UUID × WorkgroupRow)) :
    ∀ s : DBState,
      upsert_workgroups (fun _ => false) wgs s =
        .ok { s with workgroups := upsertList s.workgroups wgs } := by
  induction wgs with
  | nil => intro s; rfl
  | cons p rest ih =>
      intro s
      obtain ⟨k, v⟩ := p
      show upsert_workgroups _ rest _ = _
      rw [ih]
      rfl

/-- A failing workgroup phase raises with exactly a take-prefix of the batch
committed and every other table untouched. -/
theorem upsert_workgroups_error (failing : UUID → Bool) :
    ∀ (wgs : List (UUID × WorkgroupRow)) (s : DBState) (msg : String) (s' : DBState),
      upsert_workgroups failing wgs s = .error (msg, s') →
      msg = "workgroup upsert failed" ∧
      ∃ n, s' = { s with workgroups := upsertList s.workgroups (wgs.take n) } := by
  intro wgs
  induction wgs with
  | nil =>
      intro s msg s' h
      exact absurd h (by simp [upsert_workgroups])
  | cons p rest ih =>
      intro s msg s' h
      obtain ⟨k, v⟩ := p
      by_cases hf : failing k = true
      · unfold upsert_workgroups at h
        rw [if_pos hf] at h
        injection h with hpair
        obtain ⟨hm, hs⟩ := Prod.mk.injEq _ _ _ _ ▸ hpair
        refine ⟨hm.symm, 0, ?_⟩
        rw [← hs]
        exact DBState.ext_tables rfl rfl rfl rfl rfl rfl rfl
      · have hstep : upsert_workgroups failing ((k, v) :: rest) s =
            upsert_workgroups failing rest
              { s with workgroups := upsertRow s.workgroups k v } := by
          simp [upsert_workgroups, hf]
        rw [hstep] at h
        obtain ⟨hmsg, n, hs⟩ := ih _ msg s' h
        exact ⟨hmsg, n + 1, hs⟩

/-- Success shape of `process_meetings` (non-dry, no store failure): the
state is the workgroup batch followed by every record's committed writes. -/
theorem process_meetings_ok_shape (meetings : List MeetingSummary)
    (oj : Option (List Json)) (s : DBState) (hne : meetings ≠ [])
    (wgs : List (UUID × WorkgroupRow))
    (hex : extract_unique_workgroups meetings oj = .ok wgs) :
    ∃ stats, process_meetings meetings oj false (fun _ => false) s =
      .ok (stats, applyOps { s with workgroups := upsertList s.workgroups wgs }
        (meetings.flatMap recordOps)) := by
  refine ⟨(meetings.foldl (processOneRecord false)
    (⟨0, 0, 0, wgs.length⟩, { s with workgroups := upsertList s.workgroups wgs })).1, ?_⟩
  unfold process_meetings
  rw [if_neg (by simpa [List.isEmpty_iff] using hne)]
  rw [hex]
  show (upsert_workgroups (fun _ => false) wgs s).bind _ = _
  rw [upsert_workgroups_ok]
  show Except.ok _ = _
  rw [← loop_state meetings ⟨0, 0, 0, wgs.length⟩
    { s with workgroups := upsertList s.workgroups wgs }]
  rfl

/-- Error shape of `process_meetings` (non-dry): an escaping failure leaves
every meeting-derived table — and the runs table — exactly as before; only
a take-prefix of the workgroup batch may have committed. -/
theorem process_meetings_error_shape (meetings : List MeetingSummary)
    (oj : Option (List Json)) (failing : UUID → Bool) (s : DBState) (msg : String)
    (s' : DBState)
    (h : process_meetings meetings oj false failing s = .error (msg, s')) :
    s'.meetings = s.meetings ∧ s'.agenda_items = s.agenda_items ∧
    s'.action_items = s.action_items ∧ s'.decision_items = s.decision_items ∧
    s'.discussion_points = s.discussion_points ∧ s'.ingestion_runs = s.ingestion_runs ∧
    ∃ (wgs : List (UUID × WorkgroupRow)) (n : Nat),
      s'.workgroups = upsertList s.workgroups (wgs.take n) := by
  unfold process_meetings at h
  by_cases hne : meetings.isEmpty
  · rw [if_pos hne] at h
    exact absurd h (by simp [pure, Except.pure])
  · rw [if_neg hne] at h
    cases hex : extract_unique_workgroups meetings oj with
    | error e =>
        rw [hex] at h
        simp only [bind, Except.bind] at h
        injection h with hpair
        obtain ⟨hm, hs⟩ := Prod.mk.injEq _ _ _ _ ▸ hpair
        rw [← hs]
        exact ⟨rfl, rfl, rfl, rfl, rfl, rfl, [], 0, rfl⟩
    | ok wgs =>
        rw [hex] at h
        simp only [bind, Except.bind, Bool.false_eq_true, if_false] at h
        cases hw : upsert_workgroups failing wgs s with
        | error p =>
            obtain ⟨m2, s2⟩ := p
            rw [hw] at h
            simp only at h
            injection h with hpair
            obtain ⟨hm, hs⟩ := Prod.mk.injEq _ _ _ _ ▸ hpair
            obtain ⟨_, n, hshape⟩ := upsert_workgroups_error failing wgs s m2 s2 hw
            rw [← hs, hshape]
            exact ⟨rfl, rfl, rfl, rfl, rfl, rfl, wgs, n, rfl⟩
        | ok s1 =>
            rw [hw] at h
            simp only at h
            exact absurd h (by simp [pure, Except.pure])

/-! ## Characterization of the depth guard -/

theorem Json.height_pos (j : Json) : 1 ≤ Json.height j := by
  cases j <;> rw [Json.height] <;> omega

theorem heightList_lt_iff (n : Nat) (items : List Json) :
    n < Json.heightList items ↔ ∃ j ∈ items, n < Json.height j := by
  induction items with
  | nil =>
      rw [Json.heightList]
      simp
  | cons j rest ih =>
      rw [Json.heightList]
      rw [lt_max_iff, ih]
      constructor
      · rintro (h | ⟨j2, hm, hj2⟩)
        · exact ⟨j, List.mem_cons_self _ _, h⟩
        · exact ⟨j2, List.mem_cons_of_mem _ hm, hj2⟩
      · rintro ⟨j2, hm, hj2⟩
        rcases List.mem_cons.mp hm with heq | hm2
        · exact Or.inl (heq ▸ hj2)
        · exact Or.inr ⟨j2, hm2, hj2⟩

theorem heightFields_lt_iff (n : Nat) (fields : List (String × Json)) :
    n < Json.heightFields fields ↔ ∃ f ∈ fields, n < Json.height f.2 := by
  induction fields with
  | nil =>
      rw [Json.heightFields]
      simp
  | cons f rest ih =>
      obtain ⟨k, v⟩ := f
      rw [Json.heightFields]
      rw [lt_max_iff, ih]
      constructor
      · rintro (h | ⟨f2, hm, hf2⟩)
        · exact ⟨(k, v), List.mem_cons_self _ _, h⟩
        · exact ⟨f2, List.mem_cons_of_mem _ hm, hf2⟩
      · rintro ⟨f2, hm, hf2⟩
        rcases List.mem_cons.mp hm with heq | hm2
        · exact Or.inl (by rw [heq] at hf2; exact hf2)
        · exact Or.inr ⟨f2, hm2, hf2⟩

/-- The fuel recursion fires exactly on trees deeper than the budget. -/
theorem detectFuel_iff : ∀ (n : Nat) (j : Json), detectFuel n j = true ↔ n < Json.height j := by
  intro n
  induction n with
  | zero =>
      intro j
      apply iff_of_true rfl
      exact Json.height_pos j
  | succ n ih =>
      intro j
      cases j with
      | null =>
          apply iff_of_false (by simp [detectFuel])
          rw [Json.height]
          omega
      | bool b =>
          apply iff_of_false (by simp [detectFuel])
          rw [Json.height]
          omega
      | num m =>
          apply iff_of_false (by simp [detectFuel])
          rw [Json.height]
          omega
      | str s =>
          apply iff_of_false (by simp [detectFuel])
          rw [Json.height]
          omega
      | arr items =>
          show (items.any fun item => detectFuel n item) = true ↔ _
          rw [List.any_eq_true, Json.height]
          have : (n + 1 < 1 + Json.heightList items) ↔ n < Json.heightList items := by omega
          rw [this, heightList_lt_iff]
          constructor
          · rintro ⟨j, hm, hj⟩
            exact ⟨j, hm, (ih j).mp hj⟩
          · rintro ⟨j, hm, hj⟩
            exact ⟨j, hm, (ih j).mpr hj⟩
      | obj fields =>
          show (fields.any fun f => detectFuel n f.2) = true ↔ _
          rw [List.any_eq_true, Json.height]
          have : (n + 1 < 1 + Json.heightFields fields) ↔ n < Json.heightFields fields := by
            omega
          rw [this, heightFields_lt_iff]
          constructor
          · rintro ⟨f, hm, hf⟩
            exact ⟨f, hm, (ih f.2).mp hf⟩
          · rintro ⟨f, hm, hf⟩
            exact ⟨f, hm, (ih f.2).mpr hf⟩

/-- The guard fires exactly on trees deeper than the budget. -/
theorem detect_iff (j : Json) (d : Int) :
    detect_circular_reference j d = true ↔ (Json.height j : Int) > d := by
  unfold detect_circular_reference
  rw [detectFuel_iff]
  have h1 := Json.height_pos j
  omega

/-! ## Concrete sample data (used by witnesses and counterexamples) -/

/-- The S1 record: one workgroup, one meeting, one agenda item, one action
item. -/
def sampleRecordJson : Json :=
  .obj [("workgroup", .str "W"),
    ("workgroup_id", .str "11111111-1111-1111-1111-111111111111"),
    ("meetingInfo", .obj [("date", .str "2024-06-01"), ("host", .str "H")]),
    ("agendaItems", .arr [.obj [("actionItems", .arr [.obj [("text", .str "do x")]])]]),
    ("tags", .obj []),
    ("type", .str "regular")]

/-- The S1 document. -/
def sampleDoc : List Json := [sampleRecordJson]

/-- `11111111-1111-1111-1111-111111111111`. -/
def wg1 : UUID := ⟨0x11111111111111111111111111111111, by norm_num⟩

/-- `22222222-2222-2222-2222-222222222222`. -/
def wg2 : UUID := ⟨0x22222222222222222222222222222222, by norm_num⟩

/-! ## C9 — KPI empty-store contract -/

/-- C9: `GET kpis` returns exactly
`{total_ingested: 0, sources_count: 0, success_rate: 100.0,
duplicates_avoided: 0, last_run_timestamp: null}` when `DATABASE_URL` is
not configured or the KPI materialized view yields no row, and otherwise
returns the view's single row with those five fields. -/
theorem C9_kpi_empty_store_contract :
    (∀ fetchRow, get_kpis none fetchRow =
      .ok ⟨0, 0, 100, 0, none⟩) ∧
    (∀ url, get_kpis (some url) (.ok none) = .ok ⟨0, 0, 100, 0, none⟩) ∧
    (∀ url row, url ≠ "" → get_kpis (some url) (.ok (some row)) = .ok row) := by
  refine ⟨fun fetchRow => rfl, fun url => ?_, fun url row hne => ?_⟩
  · unfold get_kpis
    dsimp only
    by_cases h : url = ""
    · rw [if_pos h]
      rfl
    · rw [if_neg h]
      rfl
  · unfold get_kpis
    dsimp only
    rw [if_neg hne]

/-- Witness for C9 at concrete inputs. -/
theorem C9_kpi_witness :
    get_kpis none (.error "down") = .ok ⟨0, 0, 100, 0, none⟩ ∧
    get_kpis (some "postgresql://db") (.ok none) = .ok ⟨0, 0, 100, 0, none⟩ ∧
    ("postgresql://db" ≠ "" ∧
      get_kpis (some "postgresql://db") (.ok (some ⟨7, 2, 95, 3, some "2024-06-01"⟩)) =
        .ok ⟨7, 2, 95, 3, some "2024-06-01"⟩) :=
  ⟨C9_kpi_empty_store_contract.1 (.error "down"),
   C9_kpi_empty_store_contract.2.1 "postgresql://db",
   by decide,
   C9_kpi_empty_store_contract.2.2 "postgresql://db" ⟨7, 2, 95, 3, some "2024-06-01"⟩
     (by decide)⟩

/-! ## C10 — record-gate partition invariant -/

/-- One unfolding step of `validate_records`. -/
theorem validate_records_cons (r : Json) (rest : List Json) :
    validate_records (r :: rest) =
      match validate_record r with
      | .ok m => (m :: (validate_records rest).1, (validate_records rest).2)
      | .error e => ((validate_records rest).1, (r, e) :: (validate_records rest).2) := rfl

/-- C10: `validate_records` places every input record in exactly one of the
two returned lists (the lengths sum to the input length), both lists keep
the input order and compose over document concatenation (so one record's
failure never prevents validation of the records after it), and every
record lands in the list its own `validate_record` outcome selects. -/
theorem C10_validate_records_partition :
    (∀ jsonData : List Json,
      (validate_records jsonData).1.length + (validate_records jsonData).2.length =
        jsonData.length) ∧
    (∀ l₁ l₂ : List Json,
      validate_records (l₁ ++ l₂) =
        ((validate_records l₁).1 ++ (validate_records l₂).1,
         (validate_records l₁).2 ++ (validate_records l₂).2)) ∧
    (∀ (jsonData : List Json) (r : Json), r ∈ jsonData →
      (∃ m, validate_record r = .ok m ∧ m ∈ (validate_records jsonData).1) ∨
      (∃ e, validate_record r = .error e ∧ (r, e) ∈ (validate_records jsonData).2)) := by
  refine ⟨?_, ?_, ?_⟩
  · intro jsonData
    induction jsonData with
    | nil => rfl
    | cons r rest ih =>
        rw [validate_records_cons]
        cases h : validate_record r with
        | ok m =>
            dsimp only
            simp only [List.length_cons]
            omega
        | error e =>
            dsimp only
            simp only [List.length_cons]
            omega
  · intro l₁ l₂
    induction l₁ with
    | nil => rfl
    | cons r rest ih =>
        rw [List.cons_append, validate_records_cons, validate_records_cons, ih]
        cases h : validate_record r with
        | ok m => dsimp only; rw [List.cons_append]
        | error e => dsimp only; rw [List.cons_append]
  · intro jsonData r hmem
    induction jsonData with
    | nil => cases hmem
    | cons q rest ih =>
        rcases List.mem_cons.mp hmem with heq | hmem2
        · subst heq
          rw [validate_records_cons]
          cases h : validate_record r with
          | ok m =>
              left
              exact ⟨m, rfl, List.mem_cons_self _ _⟩
          | error e =>
              right
              exact ⟨e, rfl, List.mem_cons_self _ _⟩
        · rw [validate_records_cons]
          rcases ih hmem2 with ⟨m, hv, hm⟩ | ⟨e, hv, hm⟩
          · left
            refine ⟨m, hv, ?_⟩
            cases hq : validate_record q with
            | ok m2 => exact List.mem_cons_of_mem _ hm
            | error e2 => exact hm
          · right
            refine ⟨e, hv, ?_⟩
            cases hq : validate_record q with
            | ok m2 => exact hm
            | error e2 => exact List.mem_cons_of_mem _ hm

/-- Witness for C10: the partition at the S1 document. -/
theorem C10_partition_witness :
    (∃ m, validate_record sampleRecordJson = .ok m ∧
      m ∈ (validate_records sampleDoc).1) ∨
    (∃ e, validate_record sampleRecordJson = .error e ∧
      (sampleRecordJson, e) ∈ (validate_records sampleDoc).2) :=
  C10_validate_records_partition.2.2 sampleDoc sampleRecordJson (List.mem_cons_self _ _)

/-! ## C8 — date parsing order and totality -/

theorem firstFormatMatch_append (s : String) (l₁ l₂ : List String) :
    firstFormatMatch s (l₁ ++ l₂) =
      match firstFormatMatch s l₁ with
      | some dt => some dt
      | none => firstFormatMatch s l₂ := by
  induction l₁ with
  | nil => rfl
  | cons fmt rest ih =>
      show (match strptime s fmt with
            | some dt => some dt
            | none => firstFormatMatch s (rest ++ l₂)) =
          (match (match strptime s fmt with
            | some dt => some dt
            | none => firstFormatMatch s rest) with
            | some dt => some dt
            | none => firstFormatMatch s l₂)
      cases h : strptime s fmt with
      | some dt => rfl
      | none =>
          dsimp only
          exact ih

theorem firstFormatMatch_eq_none_iff (s : String) (l : List String) :
    firstFormatMatch s l = none ↔ ∀ fmt ∈ l, strptime s fmt = none := by
  induction l with
  | nil => simp [firstFormatMatch]
  | cons fmt rest ih =>
      show (match strptime s fmt with
        | some dt => some dt
        | none => firstFormatMatch s rest) = none ↔ _
      cases h : strptime s fmt with
      | some dt =>
          simp only [List.mem_cons]
          constructor
          · intro hc; cases hc
          · intro hall
            exact absurd (hall fmt (Or.inl rfl)) (by rw [h]; simp)
      | none =>
          dsimp only
          rw [ih]
          simp only [List.mem_cons]
          constructor
          · intro hall fmt2 hm
            rcases hm with heq | hm
            · rw [heq]; exact h
            · exact hall fmt2 hm
          · intro hall fmt2 hm
            exact hall fmt2 (Or.inr hm)

/-- Known-answer pins for the CPython `strptime` corners: the space-padded
single-digit day alternative of `%d` parses `" 5-06-2024"` via
`%d-%m-%Y`; the `[0-5]` bound on `%z` offset minutes rejects `+0080`; a
colon-consistent `+010030` offset parses to +1h0m30s; an inconsistent
`+01:0030` offset is rejected.  Each equality matches the observed
behaviour of the repository's `parse_date` under CPython. -/
theorem parse_date_strptime_kats :
    parse_date_str " 5-06-2024" = some ⟨2024, 6, 5, 0, 0, 0, 0, none⟩ ∧
    parse_date_str "2024-06-01T00:00:00+0080" = none ∧
    parse_date_str "2024-06-01T00:00:00+010030" =
      some ⟨2024, 6, 1, 0, 0, 0, 0, some 3630000000⟩ ∧
    parse_date_str "2024-06-01T00:00:00+01:0030" = none := by
  decide

/-- C8: `parse_date` tries exactly the nine formats in the fixed source
order (first success wins), returns `None` — rather than raising — exactly
when every format fails or the input is not a string, and a `None` date
makes the writer fail that record. -/
theorem C8_parse_date_contract :
    (∀ s : String, parse_date_str s = firstFormatMatch s
      ["%Y-%m-%d", "%Y-%m-%dT%H:%M:%S", "%Y-%m-%dT%H:%M:%SZ", "%Y-%m-%dT%H:%M:%S%z",
       "%Y-%m-%dT%H:%M:%S.%f", "%Y-%m-%dT%H:%M:%S.%fZ",
       "%m/%d/%Y", "%d-%m-%Y", "%d/%m/%Y"]) ∧
    (∀ j : Json, (∀ s : String, j ≠ .str s) → parse_date j = none) ∧
    (∀ s : String, parse_date_str s = none ↔
      ∀ fmt ∈ ["%Y-%m-%d", "%Y-%m-%dT%H:%M:%S", "%Y-%m-%dT%H:%M:%SZ", "%Y-%m-%dT%H:%M:%S%z",
        "%Y-%m-%dT%H:%M:%S.%f", "%Y-%m-%dT%H:%M:%S.%fZ",
        "%m/%d/%Y", "%d-%m-%Y", "%d/%m/%Y"], strptime s fmt = none) ∧
    (∀ (m : MeetingSummary) (wg : UUID),
      uuidParse m.workgroup_id = some wg →
      parse_date (.str m.meetingInfo.date) = none →
      processSingleMeeting m = .error ("Invalid date format: " ++ m.meetingInfo.date)) := by
  have hsplit : ∀ s : String, parse_date_str s = firstFormatMatch s
      ["%Y-%m-%d", "%Y-%m-%dT%H:%M:%S", "%Y-%m-%dT%H:%M:%SZ", "%Y-%m-%dT%H:%M:%S%z",
       "%Y-%m-%dT%H:%M:%S.%f", "%Y-%m-%dT%H:%M:%S.%fZ",
       "%m/%d/%Y", "%d-%m-%Y", "%d/%m/%Y"] := by
    intro s
    rw [show ["%Y-%m-%d", "%Y-%m-%dT%H:%M:%S", "%Y-%m-%dT%H:%M:%SZ", "%Y-%m-%dT%H:%M:%S%z",
        "%Y-%m-%dT%H:%M:%S.%f", "%Y-%m-%dT%H:%M:%S.%fZ",
        "%m/%d/%Y", "%d-%m-%Y", "%d/%m/%Y"] = iso_formats ++ other_formats from rfl,
      firstFormatMatch_append]
    rfl
  refine ⟨hsplit, ?_, ?_, ?_⟩
  · intro j hne
    cases j with
    | str s => exact absurd rfl (hne s)
    | null => rfl
    | bool b => rfl
    | num n => rfl
    | arr items => rfl
    | obj fields => rfl
  · intro s
    rw [hsplit s, firstFormatMatch_eq_none_iff]
  · intro m wg h1 h2
    unfold processSingleMeeting
    rw [h1, h2]
    rfl

/-- Witness for C8: the fallback order at `"13/01/2024"` (taken by
`%d/%m/%Y` after `%m/%d/%Y` rejects month 13), a non-string input, a string
no format accepts, and a concrete record failing at the writer. -/
theorem C8_parse_date_witness :
    parse_date_str "13/01/2024" = firstFormatMatch "13/01/2024"
      ["%Y-%m-%d", "%Y-%m-%dT%H:%M:%S", "%Y-%m-%dT%H:%M:%SZ", "%Y-%m-%dT%H:%M:%S%z",
       "%Y-%m-%dT%H:%M:%S.%f", "%Y-%m-%dT%H:%M:%S.%fZ",
       "%m/%d/%Y", "%d-%m-%Y", "%d/%m/%Y"] ∧
    parse_date (.num 20240601) = none ∧
    (parse_date_str "garbage" = none ↔
      ∀ fmt ∈ ["%Y-%m-%d", "%Y-%m-%dT%H:%M:%S", "%Y-%m-%dT%H:%M:%SZ", "%Y-%m-%dT%H:%M:%S%z",
        "%Y-%m-%dT%H:%M:%S.%f", "%Y-%m-%dT%H:%M:%S.%fZ",
        "%m/%d/%Y", "%d-%m-%Y", "%d/%m/%Y"], strptime "garbage" fmt = none) ∧
    processSingleMeeting
      ⟨"W", "11111111-1111-1111-1111-111111111111",
        ⟨"June 1st", none, none, [], none, [], some [], none⟩, [], some (.obj []),
        some "regular", []⟩ =
      .error ("Invalid date format: " ++ "June 1st") :=
  ⟨C8_parse_date_contract.1 "13/01/2024",
   C8_parse_date_contract.2.1 (.num 20240601) (fun s h => Json.noConfusion h),
   C8_parse_date_contract.2.2.1 "garbage",
   C8_parse_date_contract.2.2.2 _ wg1 (by decide) (by decide)⟩

/-! ## C7 — action-item silent filter -/

/-- Does a `discussionPoints`/`actionItems` element carry a `text` field
(i.e. is it an object with a `text` key)? -/
def hasTextField (item : Json) : Bool :=
  match item with
  | .obj fields => (fields.lookup "text").isSome
  | _ => false

/-- C7 (amended): `validate_action_items` drops exactly the elements
lacking a `text` field, keeps all remaining elements in their original
order, and is the only validator-level loss among the agenda-item
normalizers (`discussionPoints` normalization is length-preserving) — but
the number of dropped elements is not counted or surfaced anywhere. -/
theorem C7_action_filter_amended :
    (∀ items : List Json,
      validate_action_items (.arr items) = .arr (items.filter hasTextField)) ∧
    (validate_action_items .null = .arr []) ∧
    (∀ items : List Json, (items.filter hasTextField).Sublist items) ∧
    (∀ (items : List Json) (it : Json), it ∈ items →
      (it ∈ items.filter hasTextField ↔ hasTextField it = true)) ∧
    (∀ items : List Json,
      (items.filter hasTextField).length +
        (items.filter fun it => !hasTextField it).length = items.length) ∧
    (∀ items : List Json,
      validate_discussion_points (.arr items) =
        .arr (items.map normalize_discussion_point) ∧
      (items.map normalize_discussion_point).length = items.length) := by
  refine ⟨fun items => rfl, rfl, fun items => List.filter_sublist items, ?_, ?_, ?_⟩
  · intro items it hmem
    rw [List.mem_filter]
    exact ⟨fun h => h.2, fun h => ⟨hmem, h⟩⟩
  · intro items
    exact (List.length_eq_length_filter_add hasTextField).symm
  · intro items
    exact ⟨rfl, List.length_map items normalize_discussion_point⟩

/-- Counterexample for C7 as stated: the drop count is not recorded — an
input whose single element is dropped and the empty input produce identical
normalizer output, though their dropped counts differ. -/
theorem C7_drop_count_counterexample :
    validate_action_items (.arr [.obj [("assignee", .str "alice")]]) =
      validate_action_items (.arr []) ∧
    ([Json.obj [("assignee", .str "alice")]].length ≠ ([] : List Json).length) :=
  ⟨rfl, by decide⟩

/-- Witness for C7 at a concrete mixed input. -/
theorem C7_action_filter_witness :
    validate_action_items
      (.arr [.obj [("text", .str "do x")], .obj [("assignee", .str "a")], .str "loose"]) =
      .arr ([.obj [("text", .str "do x")], .obj [("assignee", .str "a")],
        .str "loose"].filter hasTextField) ∧
    (Json.obj [("assignee", .str "a")]
        ∈ [Json.obj [("text", .str "do x")], .obj [("assignee", .str "a")],
          .str "loose"].filter hasTextField ↔
      hasTextField (.obj [("assignee", .str "a")]) = true) :=
  ⟨C7_action_filter_amended.1 _,
   C7_action_filter_amended.2.2.2.1 _ _
     (List.mem_cons_of_mem _ (List.mem_cons_self _ _))⟩

/-! ## C6 — discussion-point polymorphic normalization -/

/-- The S3 record: one agenda item whose `discussionPoints` mixes a bare
string and two `{point: …}` objects. -/
def s3RecordJson : Json :=
  .obj [("workgroup", .str "W"),
    ("workgroup_id", .str "22222222-2222-2222-2222-222222222222"),
    ("meetingInfo", .obj [("date", .str "2024-06-01")]),
    ("agendaItems", .arr [.obj [("discussionPoints",
      .arr [.str "hello", .obj [("point", .str "world")], .obj [("point", .str "!")]])]]),
    ("tags", .obj []),
    ("type", .str "regular")]

/-- The S3 document. -/
def s3Doc : List Json := [s3RecordJson]

/-- C6: each `discussionPoints` element normalizes to a canonical point — a
string becomes its own text, an object keeps a present `point` field, any
other single-key object contributes its value, and a non-string non-object
is string-coerced; ingesting the S3 document yields exactly three
`discussion_points` rows with texts `hello`, `world`, `!` in positions
0, 1, 2. -/
theorem C6_discussion_point_normalization :
    (∀ s : String, normalize_discussion_point (.str s) = .obj [("point", .str s)]) ∧
    (∀ fields : List (String × Json), (fields.lookup "point").isSome = true →
      normalize_discussion_point (.obj fields) = .obj fields) ∧
    (∀ (k : String) (v : Json), k ≠ "point" →
      normalize_discussion_point (.obj [(k, v)]) = .obj [("point", v)]) ∧
    (∀ j : Json, (∀ s, j ≠ .str s) → (∀ f, j ≠ .obj f) →
      normalize_discussion_point j = .obj [("point", .str (str_coerce j))]) ∧
    (((ingestSource s3Doc false DBState.empty).2.discussion_points.map
        fun e => e.2.point_text) = ["hello", "world", "!"] ∧
      (ingestSource s3Doc false DBState.empty).2.discussion_points.length = 3) := by
  refine ⟨fun s => rfl, ?_, ?_, ?_, rfl, rfl⟩
  · intro fields h
    unfold normalize_discussion_point
    dsimp only
    rw [if_pos h]
  · intro k v h
    have hb : ("point" == k) = false := beq_eq_false_iff_ne.mpr (fun hc => h hc.symm)
    have hlook : ([(k, v)].lookup "point") = none := by
      simp only [List.lookup, hb]
    unfold normalize_discussion_point
    dsimp only
    rw [if_neg (by rw [hlook]; exact fun hc => Bool.noConfusion hc)]
  · intro j hs ho
    cases j with
    | null => rfl
    | bool b => rfl
    | num n => rfl
    | arr items => rfl
    | str s => exact absurd rfl (hs s)
    | obj fields => exact absurd rfl (ho fields)

/-- Witness for C6 at the S3 inputs. -/
theorem C6_discussion_witness :
    normalize_discussion_point (.str "hello") = .obj [("point", .str "hello")] ∧
    normalize_discussion_point (.obj [("point", .str "world")]) =
      .obj [("point", .str "world")] ∧
    normalize_discussion_point (.obj [("speaker", .str "bob")]) =
      .obj [("point", .str "bob")] ∧
    normalize_discussion_point (.num 5) = .obj [("point", .str (str_coerce (.num 5)))] :=
  ⟨C6_discussion_point_normalization.1 "hello",
   C6_discussion_point_normalization.2.1 [("point", .str "world")] (by decide),
   C6_discussion_point_normalization.2.2.1 "speaker" (.str "bob") (by decide),
   C6_discussion_point_normalization.2.2.2.1 (.num 5)
     (fun s h => Json.noConfusion h) (fun f h => Json.noConfusion h)⟩

/-! ## C5 — depth/cycle guard with atomic skip -/

/-- A chain of `n` nested single-field objects under a leaf string. -/
def nestedObj : Nat → Json
  | 0 => .str "leaf"
  | n + 1 => .obj [("a", nestedObj n)]

/-- A record whose `raw_json` dump is 12 levels deep (`tags` carries a
10-level chain). -/
def deepMeeting : MeetingSummary :=
  ⟨"W", "11111111-1111-1111-1111-111111111111",
    ⟨"2024-06-01", none, none, [], none, [], some [], none⟩, [],
    some (nestedObj 10), some "regular", []⟩

/-- A shallow, valid record. -/
def shallowMeeting : MeetingSummary :=
  ⟨"W", "11111111-1111-1111-1111-111111111111",
    ⟨"2024-06-01", some "H", none, [], none, [], some [], none⟩, [],
    some (.obj []), some "regular", []⟩

/-- C5: a record whose dumped `raw_json` exceeds 10 levels is rejected by
the writer with the circular-reference error (its transaction contributes
no row), a record within the bound is never rejected by this guard, and a
record-level failure leaves the loop's resulting store exactly as if the
failing record were absent — sibling records are processed unharmed. -/
theorem C5_depth_guard :
    (∀ (m : MeetingSummary) (wg : UUID) (dt : DateTime),
      uuidParse m.workgroup_id = some wg →
      parse_date (.str m.meetingInfo.date) = some dt →
      10 < Json.height m.model_dump →
      processSingleMeeting m = .error "Circular reference detected in meeting data") ∧
    (∀ m : MeetingSummary, Json.height m.model_dump ≤ 10 →
      detect_circular_reference m.model_dump 10 = false) ∧
    (∀ (m : MeetingSummary) (e : String) (L₁ L₂ : List MeetingSummary) (st : Stats)
        (s : DBState),
      processSingleMeeting m = .error e →
      ((L₁ ++ m :: L₂).foldl (processOneRecord false) (st, s)).2 =
        ((L₁ ++ L₂).foldl (processOneRecord false) (st, s)).2) := by
  refine ⟨?_, ?_, ?_⟩
  · intro m wg dt h1 h2 h3
    have hd : detect_circular_reference m.model_dump 10 = true :=
      (detect_iff m.model_dump 10).mpr (by exact_mod_cast h3)
    unfold processSingleMeeting
    rw [h1, h2]
    simp only [hd]
    rfl
  · intro m h
    cases hb : detect_circular_reference m.model_dump 10 with
    | false => rfl
    | true =>
        exfalso
        have := (detect_iff m.model_dump 10).mp hb
        have h' : (Json.height m.model_dump : Int) ≤ 10 := by exact_mod_cast h
        omega
  · intro m e L₁ L₂ st s h
    rw [loop_state, loop_state, List.flatMap_append, List.flatMap_append, List.flatMap_cons]
    have hz : recordOps m = [] := by unfold recordOps; rw [h]
    rw [hz, List.nil_append]

/-- Witness for C5: the 12-level record is rejected with no row of its own,
while the shallow sibling is unaffected. -/
theorem C5_depth_witness :
    processSingleMeeting deepMeeting = .error "Circular reference detected in meeting data" ∧
    detect_circular_reference shallowMeeting.model_dump 10 = false ∧
    (([deepMeeting] ++ shallowMeeting :: []).foldl (processOneRecord false)
        (⟨0, 0, 0, 0⟩, DBState.empty)).2 =
      (([deepMeeting] ++ [shallowMeeting]).foldl (processOneRecord false)
        (⟨0, 0, 0, 0⟩, DBState.empty)).2 ∧
    ((shallowMeeting :: [deepMeeting]).foldl (processOneRecord false)
        (⟨0, 0, 0, 0⟩, DBState.empty)).2 =
      (([shallowMeeting] ++ []).foldl (processOneRecord false)
        (⟨0, 0, 0, 0⟩, DBState.empty)).2 :=
  ⟨C5_depth_guard.1 deepMeeting wg1 ⟨2024, 6, 1, 0, 0, 0, 0, none⟩
      (by decide) (by decide)
      (by simp [deepMeeting, MeetingSummary.model_dump, MeetingInfo.model_dump, nestedObj,
        Json.height, Json.heightList, Json.heightFields, optStrJson]),
   C5_depth_guard.2.1 shallowMeeting
      (by simp [shallowMeeting, MeetingSummary.model_dump, MeetingInfo.model_dump,
        Json.height, Json.heightList, Json.heightFields, optStrJson]),
   C5_depth_guard.2.2 deepMeeting "Circular reference detected in meeting data"
      [] [shallowMeeting] ⟨0, 0, 0, 0⟩ DBState.empty rfl,
   C5_depth_guard.2.2 deepMeeting "Circular reference detected in meeting data"
      [shallowMeeting] [] ⟨0, 0, 0, 0⟩ DBState.empty rfl⟩

/-! ## C4 — record isolation (and the workgroup-extraction crash) -/

/-- A valid record parameterized by workgroup id and name. -/
def c4Record (wgid name : String) : Json :=
  .obj [("workgroup", .str name),
    ("workgroup_id", .str wgid),
    ("meetingInfo", .obj [("date", .str "2024-06-01")]),
    ("agendaItems", .arr []),
    ("tags", .obj []),
    ("type", .str "regular")]

/-- The S4 document: three records, the middle one with
`workgroup_id: "not-a-uuid"`. -/
def c4Doc : List Json :=
  [c4Record "11111111-1111-1111-1111-111111111111" "W",
   c4Record "not-a-uuid" "X",
   c4Record "22222222-2222-2222-2222-222222222222" "Y"]

/-- C4, evaluated at the claim's own example: the record gate does isolate
the malformed record (two valid, one invalid), but the ingestion then
aborts the whole source — `extract_unique_workgroups` calls `uuid.UUID` on
every original record's `workgroup_id`, and the malformed one raises out of
`process_meetings` — so no record at all is persisted, against the
documented record-isolation contract. -/
theorem C4_isolation_crash_eval :
    validate_structure c4Doc = true ∧
    (validate_records c4Doc).1.length = 2 ∧
    (validate_records c4Doc).2.length = 1 ∧
    ingestSource c4Doc false DBState.empty =
      (.sourceError "badly formed hexadecimal UUID string: not-a-uuid", DBState.empty) :=
  ⟨rfl, rfl, rfl, rfl⟩

/-! ## C3 — workgroup batch precedence without atomicity -/

/-- C3 (amended): every workgroup upsert of a run completes before any
meeting upsert, and a workgroup-phase failure aborts the source with no
meeting-derived row written; but the batch commits upsert by upsert, so
exactly the workgroups before the failure point remain persisted. -/
theorem C3_workgroup_precedence_amended :
    (∀ (meetings : List MeetingSummary) (oj : Option (List Json)) (failing : UUID → Bool)
        (s : DBState) (msg : String) (s' : DBState),
      process_meetings meetings oj false failing s = .error (msg, s') →
      s'.meetings = s.meetings ∧ s'.agenda_items = s.agenda_items ∧
      s'.action_items = s.action_items ∧ s'.decision_items = s.decision_items ∧
      s'.discussion_points = s.discussion_points ∧
      ∃ (wgs : List (UUID × WorkgroupRow)) (n : Nat),
        s'.workgroups = upsertList s.workgroups (wgs.take n)) ∧
    (∀ (meetings : List MeetingSummary) (oj : Option (List Json)) (s : DBState),
      meetings ≠ [] →
      ∀ wgs, extract_unique_workgroups meetings oj = .ok wgs →
      ∃ stats, process_meetings meetings oj false (fun _ => false) s =
        .ok (stats, applyOps { s with workgroups := upsertList s.workgroups wgs }
          (meetings.flatMap recordOps))) := by
  refine ⟨?_, ?_⟩
  · intro meetings oj failing s msg s' h
    obtain ⟨h1, h2, h3, h4, h5, _h6, wgs, n, h7⟩ :=
      process_meetings_error_shape meetings oj failing s msg s' h
    exact ⟨h1, h2, h3, h4, h5, wgs, n, h7⟩
  · intro meetings oj s hne wgs hex
    exact process_meetings_ok_shape meetings oj s hne wgs hex

/-- A second valid record in another workgroup. -/
def meetingB : MeetingSummary :=
  ⟨"W2", "22222222-2222-2222-2222-222222222222",
    ⟨"2024-06-01", some "H", none, [], none, [], some [], none⟩, [],
    some (.obj []), some "regular", []⟩

/-- Counterexample for C3 as stated: with the second workgroup's upsert
failing, the run aborts — yet the first workgroup's row from the same batch
is already persisted, so the batch was not atomic. -/
theorem C3_atomicity_counterexample :
    process_meetings [shallowMeeting, meetingB] none false (fun k => k == wg2)
        DBState.empty =
      .error ("workgroup upsert failed",
        { DBState.empty with
            workgroups := [(wg1, ⟨"W", shallowMeeting.model_dump⟩)] }) ∧
    (lookupRow [(wg1, (⟨"W", shallowMeeting.model_dump⟩ : WorkgroupRow))] wg1).isSome =
      true :=
  ⟨rfl, rfl⟩

/-- Witness for C3: the amended theorem applied to the concrete failing
batch. -/
theorem C3_precedence_witness :
    ({ DBState.empty with
        workgroups := [(wg1, ⟨"W", shallowMeeting.model_dump⟩)] } : DBState).meetings =
      DBState.empty.meetings ∧
    ({ DBState.empty with
        workgroups := [(wg1, ⟨"W", shallowMeeting.model_dump⟩)] } : DBState).agenda_items =
      DBState.empty.agenda_items ∧
    ({ DBState.empty with
        workgroups := [(wg1, ⟨"W", shallowMeeting.model_dump⟩)] } : DBState).action_items =
      DBState.empty.action_items ∧
    ({ DBState.empty with
        workgroups := [(wg1, ⟨"W", shallowMeeting.model_dump⟩)] } : DBState).decision_items =
      DBState.empty.decision_items ∧
    ({ DBState.empty with
        workgroups := [(wg1, ⟨"W", shallowMeeting.model_dump⟩)] } : DBState).discussion_points =
      DBState.empty.discussion_points ∧
    ∃ (wgs : List (UUID × WorkgroupRow)) (n : Nat),
      ({ DBState.empty with
          workgroups := [(wg1, ⟨"W", shallowMeeting.model_dump⟩)] } : DBState).workgroups =
        upsertList DBState.empty.workgroups (wgs.take n) :=
  C3_workgroup_precedence_amended.1 [shallowMeeting, meetingB] none (fun k => k == wg2)
    DBState.empty "workgroup upsert failed"
    { DBState.empty with workgroups := [(wg1, ⟨"W", shallowMeeting.model_dump⟩)] } rfl

/-! ## C2 — deterministic meeting identity -/

/-- A validated record that differs from the others only in its host. -/
def hostRecord (h : String) : MeetingSummary :=
  ⟨"W", "11111111-1111-1111-1111-111111111111",
    ⟨"2024-06-01", some h, none, [], none, [], some [], none⟩, [],
    some (.obj []), some "regular", []⟩

/-- C2 (amended): a syntactically valid source UUID is used verbatim;
otherwise the meeting id is exactly
`uuid5(NS_MEETING, "{workgroup_id}:{date}:{hash16}")` with `hash16` the
first 16 hex characters of SHA-256 over
`"{workgroup_id}:{date}:{host or ''}:{purpose or ''}:{agenda_count}"`;
identical records always derive equal ids; and records differing only in
host derive distinct ids for ordinary values (the spec's S2 hosts `"A"` and
`"B"`), though not universally — the 64-bit truncated hash admits
collisions. -/
theorem C2_meeting_identity_amended :
    (∀ (wgId : UUID) (mdate : Date) (m : MeetingSummary) (s : String) (u : UUID),
      m.extra.lookup "id" = some (.str s) → s ≠ "" → uuidParse s = some u →
      meetingIdOf wgId mdate m = u) ∧
    (∀ (wgId : UUID) (mdate : Date) (m : MeetingSummary),
      sourceMeetingId m = none →
      meetingIdOf wgId mdate m =
        uuid5 MEETING_NAMESPACE
          (uuidToString wgId ++ ":" ++ dateToString mdate ++ ":" ++
            (SHA256.hexdigest (utf8Encode
              (uuidToString wgId ++ ":" ++ dateToString mdate ++ ":" ++
                m.meetingInfo.host.getD "" ++ ":" ++ m.meetingInfo.purpose.getD "" ++ ":" ++
                toString m.agendaItems.length))).take 16)) ∧
    (∀ (wgId : UUID) (mdate : Date) (m₁ m₂ : MeetingSummary), m₁ = m₂ →
      meetingIdOf wgId mdate m₁ = meetingIdOf wgId mdate m₂) ∧
    (meetingIdOf wg1 ⟨2024, 6, 1⟩ (hostRecord "A") ≠
      meetingIdOf wg1 ⟨2024, 6, 1⟩ (hostRecord "B")) := by
  refine ⟨?_, ?_, ?_, ?_⟩
  · intro wgId mdate m s u hlook hs hparse
    unfold meetingIdOf sourceMeetingId
    rw [hlook]
    dsimp only
    rw [if_neg hs, hparse]
  · intro wgId mdate m hnone
    unfold meetingIdOf
    rw [hnone]
    rfl
  · intro wgId mdate m₁ m₂ heq
    rw [heq]
  · decide

/-- Counterexample for C2's universal distinctness: the meeting id factors
through a 64-bit truncation of SHA-256 (and a 122-bit `uuid5`), so by
pigeonhole over the infinitely many host strings two records sharing
workgroup and date but differing in host derive the same id. -/
theorem C2_distinctness_counterexample :
    ∃ h₁ h₂ : String, h₁ ≠ h₂ ∧
      (hostRecord h₁).meetingInfo.host ≠ (hostRecord h₂).meetingInfo.host ∧
      meetingIdOf wg1 ⟨2024, 6, 1⟩ (hostRecord h₁) =
        meetingIdOf wg1 ⟨2024, 6, 1⟩ (hostRecord h₂) := by
  obtain ⟨h₁, h₂, hne, heq⟩ := Finite.exists_ne_map_eq_of_infinite
    (fun h : String => meetingIdOf wg1 ⟨2024, 6, 1⟩ (hostRecord h))
  exact ⟨h₁, h₂, hne, fun hc => hne (Option.some.inj hc), heq⟩

/-- A record carrying a source-supplied meeting id. -/
def recordWithId : MeetingSummary :=
  ⟨"W", "11111111-1111-1111-1111-111111111111",
    ⟨"2024-06-01", some "H", none, [], none, [], some [], none⟩, [],
    some (.obj []), some "regular",
    [("id", .str "33333333-3333-3333-3333-333333333333")]⟩

/-- `33333333-3333-3333-3333-333333333333`. -/
def wg3 : UUID := ⟨0x33333333333333333333333333333333, by norm_num⟩

/-- Witness for C2 at concrete records. -/
theorem C2_meeting_identity_witness :
    meetingIdOf wg1 ⟨2024, 6, 1⟩ recordWithId = wg3 ∧
    meetingIdOf wg1 ⟨2024, 6, 1⟩ shallowMeeting =
      uuid5 MEETING_NAMESPACE
        (uuidToString wg1 ++ ":" ++ dateToString ⟨2024, 6, 1⟩ ++ ":" ++
          (SHA256.hexdigest (utf8Encode
            (uuidToString wg1 ++ ":" ++ dateToString ⟨2024, 6, 1⟩ ++ ":" ++
              shallowMeeting.meetingInfo.host.getD "" ++ ":" ++
              shallowMeeting.meetingInfo.purpose.getD "" ++ ":" ++
              toString shallowMeeting.agendaItems.length))).take 16) ∧
    meetingIdOf wg1 ⟨2024, 6, 1⟩ (hostRecord "A") =
      meetingIdOf wg1 ⟨2024, 6, 1⟩ (hostRecord "A") :=
  ⟨C2_meeting_identity_amended.1 wg1 ⟨2024, 6, 1⟩ recordWithId
      "33333333-3333-3333-3333-333333333333" wg3 rfl (by decide) (by decide),
   C2_meeting_identity_amended.2.1 wg1 ⟨2024, 6, 1⟩ shallowMeeting rfl,
   C2_meeting_identity_amended.2.2.1 wg1 ⟨2024, 6, 1⟩ (hostRecord "A") (hostRecord "A") rfl⟩

/-! ## C1 — re-ingest idempotence -/

/-- Store well-formedness: primary keys are unique in every entity table,
as the database's PK constraints guarantee for any reachable store. -/
def DBState.wf (s : DBState) : Prop :=
  (tableKeys s.workgroups).Nodup ∧ (tableKeys s.meetings).Nodup ∧
  (tableKeys s.agenda_items).Nodup ∧ (tableKeys s.action_items).Nodup ∧
  (tableKeys s.decision_items).Nodup ∧ (tableKeys s.discussion_points).Nodup

/-- `process_meetings` with a failing workgroup extraction raises without
touching the store. -/
theorem process_meetings_extract_error (meetings : List MeetingSummary)
    (oj : Option (List Json)) (failing : UUID → Bool) (s : DBState) (e : String)
    (hne : meetings ≠ []) (hex : extract_unique_workgroups meetings oj = .error e) :
    process_meetings meetings oj false failing s = .error (e, s) := by
  unfold process_meetings
  rw [if_neg (by simpa [List.isEmpty_iff] using hne), hex]
  rfl

/-- C1 (amended): re-ingesting any document leaves the entire store —
including all six entity tables' row contents and row counts — exactly as
after the first ingest, from any store whose primary keys are unique.
(The `duplicates_avoided` part of the original claim fails: the ingestion
path maintains no such counter.) -/
theorem C1_reingest_idempotent (doc : List Json) (s : DBState) (hwf : s.wf) :
    (ingestSource doc false (ingestSource doc false s).2).2 =
      (ingestSource doc false s).2 := by
  by_cases hv : validate_structure doc = true
  · rcases hvr : validate_records doc with ⟨valid, invalid⟩
    by_cases hvalid : valid.isEmpty
    · have hpass : ∀ s₀ : DBState, (ingestSource doc false s₀).2 = s₀ := by
        intro s₀
        unfold ingestSource
        rw [hv, hvr]
        dsimp only
        rw [if_pos hvalid]
        rfl
      rw [hpass, hpass]
    · have hne : valid ≠ [] := by
        intro hc
        rw [hc] at hvalid
        exact hvalid rfl
      cases hex : extract_unique_workgroups valid (some doc) with
      | error e =>
          have hpass : ∀ s₀ : DBState, (ingestSource doc false s₀).2 = s₀ := by
            intro s₀
            unfold ingestSource
            rw [hv, hvr]
            dsimp only
            rw [if_neg hvalid,
              process_meetings_extract_error valid (some doc) (fun _ => false) s₀ e hne hex]
            rfl
          rw [hpass, hpass]
      | ok wgs =>
          have hshape : ∀ s₀ : DBState, (ingestSource doc false s₀).2 =
              applyOps { s₀ with workgroups := upsertList s₀.workgroups wgs }
                (valid.flatMap recordOps) := by
            intro s₀
            obtain ⟨stats, hok⟩ := process_meetings_ok_shape valid (some doc) s₀ hne wgs hex
            unfold ingestSource
            rw [hv, hvr]
            dsimp only
            rw [if_neg hvalid, hok]
            rfl
          rw [hshape, hshape]
          apply DBState.ext_tables
          · rw [applyOps_workgroups, applyOps_workgroups]
            exact upsertList_idempotent _ _ hwf.1
          · rw [applyOps_meetings, applyOps_meetings]
            exact upsertList_idempotent _ _ hwf.2.1
          · rw [applyOps_agenda, applyOps_agenda]
            exact upsertList_idempotent _ _ hwf.2.2.1
          · rw [applyOps_action, applyOps_action]
            exact upsertList_idempotent _ _ hwf.2.2.2.1
          · rw [applyOps_decision, applyOps_decision]
            exact upsertList_idempotent _ _ hwf.2.2.2.2.1
          · rw [applyOps_discussion, applyOps_discussion]
            exact upsertList_idempotent _ _ hwf.2.2.2.2.2
          · rw [applyOps_runs, applyOps_runs]
  · have hvf : validate_structure doc = false := Bool.eq_false_iff.mpr hv
    have hpass : ∀ s₀ : DBState, (ingestSource doc false s₀).2 = s₀ := by
      intro s₀
      unfold ingestSource
      rw [hvf]
      rfl
    rw [hpass, hpass]

/-- Total `duplicates_avoided` accounted in the runs table. -/
def totalDuplicatesAvoided (s : DBState) : Nat :=
  (s.ingestion_runs.map fun e => e.2.duplicates_avoided).sum

/-- Counterexample for C1 as stated: the second pass does not increment
`duplicates_avoided` by the number of records — nothing in the ingestion
path writes run accounting at all, so the counter stays at zero instead of
rising by one on the S1 document. -/
theorem C1_duplicates_counterexample :
    totalDuplicatesAvoided
        (ingestSource sampleDoc false (ingestSource sampleDoc false DBState.empty).2).2 ≠
      totalDuplicatesAvoided (ingestSource sampleDoc false DBState.empty).2 +
        sampleDoc.length := by
  decide

/-- Witness for C1: idempotence of the S1 document over the empty store. -/
theorem C1_idempotence_witness :
    DBState.empty.wf ∧
    (ingestSource sampleDoc false (ingestSource sampleDoc false DBState.empty).2).2 =
      (ingestSource sampleDoc false DBState.empty).2 :=
  ⟨⟨List.nodup_nil, List.nodup_nil, List.nodup_nil, List.nodup_nil, List.nodup_nil,
     List.nodup_nil⟩,
   C1_reingest_idempotent sampleDoc DBState.empty
     ⟨List.nodup_nil, List.nodup_nil, List.nodup_nil, List.nodup_nil, List.nodup_nil,
      List.nodup_nil⟩⟩

end DataIngestion
